import Mathlib

set_option maxRecDepth 16000

/-!
Verification of the ChatGPT Tool importer (`src/chatgpt_tool.py`).

This file gives a shallow embedding of the parts of the program that the
claims concern: the schema fingerprint (`calculate_column_names_hash`,
backed by a full embedding of MD5), table-name derivation
(`get_table_name`), table-name versioning (`get_versioned_table_name`),
the import pipeline (`import_single_json_object` and its helpers over an
explicit SQLite-like store model), the conversation transcript
reconstruction (`get_conversation_messages`, including a model of
`ast.literal_eval` on Python literal strings), and the conversation
lookup used by print/export (`get_matching_conversations`).
-/

namespace ChatGPTTool

/-- Python/JSON values, as produced by `json.load` and manipulated by the
tool.  Numbers are modelled as integers (the claims under study never
depend on float semantics). -/
inductive JValue where
  | null : JValue
  | bool : Bool → JValue
  | num : Int → JValue
  | str : String → JValue
  | arr : List JValue → JValue
  | obj : List (String × JValue) → JValue

/-- Python truthiness (`bool(v)`): `None`, `False`, `0`, `""`, `[]`, `{}`
are falsy, everything else truthy. -/
def pyTruthy : JValue → Bool
  | .null => false
  | .bool b => b
  | .num n => n != 0
  | .str s => s != ""
  | .arr xs => !xs.isEmpty
  | .obj fs => !fs.isEmpty

/-- Dictionary lookup `d.get(k)` for a string key on an object. -/
def objGet (fields : List (String × JValue)) (k : String) : Option JValue :=
  (fields.find? (fun p => p.1 = k)).map (·.2)

/-! ## MD5 (`hashlib.md5(...).hexdigest()`)

A full executable embedding of MD5 over byte lists, used by
`calculate_column_names_hash`. -/

/-- 32-bit truncation. -/
def w32 (n : Nat) : Nat := n % 4294967296

/-- 32-bit left rotation. -/
def rotl (x s : Nat) : Nat :=
  w32 ((x <<< s) + (w32 x) / (2 ^ (32 - s)))

/-- UTF-8 encoding of one code point. -/
def utf8Char (c : Char) : List Nat :=
  let n := c.toNat
  if n < 128 then [n]
  else if n < 2048 then [192 + n / 64, 128 + n % 64]
  else if n < 65536 then [224 + n / 4096, 128 + (n / 64) % 64, 128 + n % 64]
  else [240 + n / 262144, 128 + (n / 4096) % 64, 128 + (n / 64) % 64, 128 + n % 64]

/-- UTF-8 encoding of a string (Python `str.encode()`). -/
def utf8Bytes (s : String) : List Nat :=
  s.data.flatMap utf8Char

/-- The 64 MD5 round constants `K[i] = floor(2^32 * |sin(i+1)|)`. -/
def md5K : List Nat :=
  [0xd76aa478, 0xe8c7b756, 0x242070db, 0xc1bdceee,
   0xf57c0faf, 0x4787c62a, 0xa8304613, 0xfd469501,
   0x698098d8, 0x8b44f7af, 0xffff5bb1, 0x895cd7be,
   0x6b901122, 0xfd987193, 0xa679438e, 0x49b40821,
   0xf61e2562, 0xc040b340, 0x265e5a51, 0xe9b6c7aa,
   0xd62f105d, 0x02441453, 0xd8a1e681, 0xe7d3fbc8,
   0x21e1cde6, 0xc33707d6, 0xf4d50d87, 0x455a14ed,
   0xa9e3e905, 0xfcefa3f8, 0x676f02d9, 0x8d2a4c8a,
   0xfffa3942, 0x8771f681, 0x6d9d6122, 0xfde5380c,
   0xa4beea44, 0x4bdecfa9, 0xf6bb4b60, 0xbebfbc70,
   0x289b7ec6, 0xeaa127fa, 0xd4ef3085, 0x04881d05,
   0xd9d4d039, 0xe6db99e5, 0x1fa27cf8, 0xc4ac5665,
   0xf4292244, 0x432aff97, 0xab9423a7, 0xfc93a039,
   0x655b59c3, 0x8f0ccc92, 0xffeff47d, 0x85845dd1,
   0x6fa87e4f, 0xfe2ce6e0, 0xa3014314, 0x4e0811a1,
   0xf7537e82, 0xbd3af235, 0x2ad7d2bb, 0xeb86d391]

/-- The 64 MD5 per-round left-rotation amounts. -/
def md5S : List Nat :=
  [7, 12, 17, 22, 7, 12, 17, 22, 7, 12, 17, 22, 7, 12, 17, 22,
   5, 9, 14, 20, 5, 9, 14, 20, 5, 9, 14, 20, 5, 9, 14, 20,
   4, 11, 16, 23, 4, 11, 16, 23, 4, 11, 16, 23, 4, 11, 16, 23,
   6, 10, 15, 21, 6, 10, 15, 21, 6, 10, 15, 21, 6, 10, 15, 21]

/-- Pack a 64-byte chunk into sixteen little-endian 32-bit words. -/
def md5Words (chunk : List Nat) (j : Nat) : Nat :=
  chunk.getD (4 * j) 0 + 256 * chunk.getD (4 * j + 1) 0 +
    65536 * chunk.getD (4 * j + 2) 0 + 16777216 * chunk.getD (4 * j + 3) 0

/-- One MD5 round: the nonlinear function and message index for round `i`. -/
def md5Mix (i b c d : Nat) : Nat × Nat :=
  if i < 16 then ((b.land c).lor ((4294967295 - b).land d), i)
  else if i < 32 then ((d.land b).lor ((4294967295 - d).land c), (5 * i + 1) % 16)
  else if i < 48 then ((b.xor c).xor d, (3 * i + 5) % 16)
  else (c.xor (b.lor (4294967295 - d)), (7 * i) % 16)

/-- Process one 64-byte chunk, updating the four-word MD5 state. -/
def md5Chunk (st : Nat × Nat × Nat × Nat) (chunk : List Nat) :
    Nat × Nat × Nat × Nat :=
  let m := md5Words chunk
  let final := (List.range 64).foldl
    (fun q i =>
      let (a, b, c, d) := q
      let (f, g) := md5Mix i b c d
      let f' := w32 (f + a + md5K.getD i 0 + m g)
      (d, w32 (b + rotl f' (md5S.getD i 0)), b, c))
    st
  let (a0, b0, c0, d0) := st
  let (a, b, c, d) := final
  (w32 (a0 + a), w32 (b0 + b), w32 (c0 + c), w32 (d0 + d))

/-- Split a byte list into its 64-byte chunks (the fuel argument, set to
the list length, keeps the recursion structural). -/
def splitChunks : Nat → List Nat → List (List Nat)
  | 0, _ => []
  | _, [] => []
  | fuel + 1, bytes => bytes.take 64 :: splitChunks fuel (bytes.drop 64)

/-- Fold the MD5 compression over all 64-byte chunks. -/
def md5Fold (st : Nat × Nat × Nat × Nat) (bytes : List Nat) :
    Nat × Nat × Nat × Nat :=
  (splitChunks bytes.length bytes).foldl md5Chunk st

/-- MD5 padding: append `0x80`, zero bytes to 56 mod 64, then the
original bit length as eight little-endian bytes. -/
def md5Pad (bytes : List Nat) : List Nat :=
  let len := bytes.length
  let zeros := (119 - len % 64) % 64
  let bitLen := (8 * len) % 18446744073709551616
  bytes ++ [128] ++ List.replicate zeros 0 ++
    (List.range 8).map (fun i => bitLen / 256 ^ i % 256)

/-- Lowercase hex digit. -/
def hexDigit (n : Nat) : Char :=
  if n < 10 then Char.ofNat (48 + n) else Char.ofNat (87 + n)

/-- A 32-bit word as eight lowercase hex characters, byte-wise
little-endian. -/
def wordHex (x : Nat) : List Char :=
  (List.range 4).flatMap
    (fun i => [hexDigit (x / 256 ^ i % 256 / 16), hexDigit (x / 256 ^ i % 16)])

/-- `hashlib.md5(s.encode()).hexdigest()`. -/
def md5hex (s : String) : String :=
  let (a, b, c, d) :=
    md5Fold (0x67452301, 0xefcdab89, 0x98badcfe, 0x10325476)
      (md5Pad (utf8Bytes s))
  ⟨wordHex a ++ wordHex b ++ wordHex c ++ wordHex d⟩

/-! ## The schema fingerprint (`calculate_column_names_hash`) -/

/-- Lexicographic comparison of character lists by code point — the
order Python uses to compare strings. -/
def charsLe : List Char → List Char → Bool
  | [], _ => true
  | _ :: _, [] => false
  | a :: as, b :: bs =>
    if a < b then true else if b < a then false else charsLe as bs

/-- Python's `≤` on strings: code-point lexicographic order. -/
def pyStrLe (a b : String) : Prop := charsLe a.data b.data = true

instance : DecidableRel pyStrLe := fun a b => by
  unfold pyStrLe; infer_instance

/-- Python `sorted` on a list of strings: a stable sort by the
code-point order on strings (modelled with insertion sort). -/
def pySorted (l : List String) : List String :=
  l.insertionSort pyStrLe

/-- `calculate_column_names_hash(column_names)` from the source:
`column_names = sorted(column_names) if column_names else []`, then the
MD5 hex digest of `"".join(column_names)`. -/
def calculate_column_names_hash (column_names : List String) : String :=
  let cn := if column_names.isEmpty then [] else pySorted column_names
  md5hex (String.join cn)

/-! ## Table-name derivation (`get_table_name`) -/

/-- Index of the last occurrence of `c` in `l`, if any. -/
def lastIndexOf (l : List Char) (c : Char) : Option Nat :=
  match l.reverse.findIdx? (· == c) with
  | some j => some (l.length - 1 - j)
  | none => none

/-- `os.path.basename`: everything after the last `/`. -/
def basename (p : String) : String :=
  ⟨(p.data.reverse.takeWhile (· != '/')).reverse⟩

/-- The root part of `os.path.splitext` (CPython `posixpath.splitext`):
split at the last dot that comes after the last separator, unless every
character between them is a dot (leading-dot files keep their name). -/
def splitextRoot (p : String) : String :=
  let l := p.data
  let sep : Int := match lastIndexOf l '/' with | some i => (i : Int) | none => -1
  let dot : Int := match lastIndexOf l '.' with | some i => (i : Int) | none => -1
  if sep < dot ∧
      ((l.drop (sep + 1).toNat).take (dot - sep - 1).toNat).any (· != '.') then
    ⟨l.take dot.toNat⟩
  else p

/-- Membership in `string.ascii_letters + string.digits + "_"`. -/
def validChar (c : Char) : Bool :=
  decide (('a' ≤ c ∧ c ≤ 'z') ∨ ('A' ≤ c ∧ c ≤ 'Z') ∨ ('0' ≤ c ∧ c ≤ '9') ∨ c = '_')

/-- Replace every character outside the allow-list by an underscore
(the `''.join(c if c in valid_chars else "_" ...)` step). -/
def sanitizeName (s : String) : String :=
  ⟨s.data.map (fun c => if validChar c then c else '_')⟩

/-- Python `str.strip("_")`: remove leading and trailing underscores. -/
def stripUnderscores (s : String) : String :=
  ⟨((s.data.dropWhile (· == '_')).reverse.dropWhile (· == '_')).reverse⟩

/-- The tool's fixed `TABLE_MAPPING` (`chat → conversations`,
`user → user`). -/
def TABLE_MAPPING : List (String × String) := [("chat", "conversations"), ("user", "user")]

/-- Apply `TABLE_MAPPING.get(name, name)`. -/
def applyTableMapping (name : String) : String :=
  ((TABLE_MAPPING.find? (fun p => p.1 = name)).map (·.2)).getD name

/-- `get_table_name(file_path)` from the source: base name, extension
removed, characters sanitized, underscores stripped from both ends, and
finally the `TABLE_MAPPING` lookup. -/
def get_table_name (file_path : String) : String :=
  let base_filename := basename file_path
  let suggested_name := splitextRoot base_filename
  let table_name := sanitizeName suggested_name
  let table_name := stripUnderscores table_name
  applyTableMapping table_name

/-- The table name exactly as claim C9 words it: the base name with the
extension removed and every character outside `[A-Za-z0-9_]` replaced by
an underscore — with no underscore stripping and no mapping. -/
def claimC9TableName (file_path : String) : String :=
  sanitizeName (splitextRoot (basename file_path))

/-- The amended description of the suggested table name: sanitize the
extension-stripped base name, then strip leading/trailing underscores,
then apply the fixed table-name mapping. -/
def amendedTableName (file_path : String) : String :=
  applyTableMapping (stripUnderscores (claimC9TableName file_path))

/-! ## The SQLite store model

The tool's persistent state: the user tables (`sqlite_master` plus each
table's columns, primary key and rows), the `schema` registry table, and
the in-memory `schema_cache` dictionary. -/

/-- One SQLite table created by the tool: its name, primary-key columns,
full column list (in creation order) and rows.  A row is stored as the
association list of the columns named in its `INSERT` statement (columns
left unnamed are NULL, hence absent). -/
structure Table where
  name : String
  pkColumns : List String
  columns : List String
  rows : List (List (String × String))
deriving DecidableEq, Repr

/-- One row of the `schema` registry table
(`hash_value, table_name, column_names`). -/
structure SchemaRow where
  hash_value : String
  table_name : String
  column_names : String
deriving DecidableEq, Repr

/-- The full store state. -/
structure DB where
  tables : List Table
  schema : List SchemaRow
  schema_cache : List (String × String)
deriving DecidableEq, Repr

/-- The registry table's fixed name, `SCHEMA_TABLE`. -/
def SCHEMA_TABLE : String := "schema"

/-- `table_exists(cursor, name)`: does `sqlite_master` know the table?
(The `schema` registry table itself is created by `create_schema_table`
before any import and therefore always exists.) -/
def table_exists (db : DB) (table_name : String) : Bool :=
  table_name == SCHEMA_TABLE || db.tables.any (fun t => t.name == table_name)

/-- Python dictionary lookup in the schema cache. -/
def cacheLookup (cache : List (String × String)) (n : String) : Option String :=
  (cache.find? (fun p => p.1 == n)).map (·.2)

/-- Python dictionary assignment in the schema cache. -/
def cacheInsert (cache : List (String × String)) (n v : String) :
    List (String × String) :=
  (n, v) :: cache

/-- `query_single_value("schema", "table_name", v, "hash_value")`: the
hash recorded for table `v`, from the first matching registry row.
`query_table` treats an empty (falsy) condition value as no condition at
all and then returns the first row of the whole table. -/
def query_single_value_schema (db : DB) (v : String) : Option String :=
  if v = "" then db.schema.head?.map (·.hash_value)
  else (db.schema.find? (fun r => r.table_name == v)).map (·.hash_value)

/-- The name probed at iteration `version` of the
`get_versioned_table_name` loop: the logical name itself first, then
`name_v2`, `name_v3`, …. -/
def probeName (table_name : String) (version : Nat) : String :=
  if version = 1 then table_name else table_name ++ "_v" ++ toString version

/-- The `while self.table_exists(...)` loop of
`get_versioned_table_name`, with explicit fuel: stop at the current name
when it is unbound, or the schema cache knows it with the supplied hash,
or the registry records the supplied hash for it (updating the cache);
otherwise bump the version suffix. -/
def resolveLoop (db : DB) (table_name hash_value : String)
    (cache : List (String × String)) :
    Nat → Nat → Option (String × List (String × String))
  | 0, _ => none
  | fuel + 1, version =>
    let vname := probeName table_name version
    if table_exists db vname then
      if cacheLookup cache vname == some hash_value then some (vname, cache)
      else if query_single_value_schema db vname == some hash_value then
        some (vname, cacheInsert cache vname hash_value)
      else resolveLoop db table_name hash_value cache fuel (version + 1)
    else some (vname, cache)

/-- `get_versioned_table_name(cursor, table_name, column_names)`: the
resolved table name and the batch fingerprint, plus the possibly updated
schema cache.  `none` only when the fuel does not cover the probe. -/
def get_versioned_table_name (fuel : Nat) (db : DB) (table_name : String)
    (column_names : List String) :
    Option (String × String × List (String × String)) :=
  let hash_value := calculate_column_names_hash column_names
  (resolveLoop db table_name hash_value db.schema_cache fuel 1).map
    (fun p => (p.1, hash_value, p.2))

/-- Claim C4's stopping condition for a probed name: the name is unbound
(no such table), or its recorded fingerprint equals the supplied one. -/
def claimGood (db : DB) (hash_value n : String) : Bool :=
  !(table_exists db n) || (query_single_value_schema db n == some hash_value)

/-- Consistency of the in-memory schema cache with the persisted
registry: every cached binding is the recorded one. -/
def cacheConsistent (db : DB) : Prop :=
  ∀ n v, cacheLookup db.schema_cache n = some v →
    query_single_value_schema db n = some v

/-! ## The import pipeline (`import_single_json_object` and helpers) -/

/-- `str.lower()`, over the character list. -/
def strLower (s : String) : String := ⟨s.data.map Char.toLower⟩

/-- SQLite compares identifiers case-insensitively (ASCII). -/
def ciEq (a b : String) : Bool := strLower a == strLower b

/-- Does a column list contain two names SQLite would consider equal? -/
def hasCIDup : List String → Bool
  | [] => false
  | c :: cs => cs.any (fun d => ciEq c d) || hasCIDup cs

/-- Python `repr` of a string (as printed inside containers by `str`):
single quotes, switching to double quotes when the string contains a
single quote but no double quote. -/
def pyReprStr (s : String) : String :=
  if s.data.contains '\'' && !(s.data.contains '"') then
    "\"" ++ ⟨s.data.flatMap (fun c => if c = '\\' then ['\\', '\\'] else [c])⟩ ++ "\""
  else
    "'" ++ ⟨s.data.flatMap (fun c =>
      if c = '\\' then ['\\', '\\'] else if c = '\'' then ['\\', '\''] else [c])⟩ ++ "'"

mutual

/-- Python `str`/`repr` of a value, as `convert_values` stores
non-scalar values (`str(value)`). -/
def pyRepr : JValue → String
  | .null => "None"
  | .bool b => if b then "True" else "False"
  | .num n => toString n
  | .str s => pyReprStr s
  | .arr xs => "[" ++ String.intercalate ", " (pyReprList xs) ++ "]"
  | .obj fs => "\x7b" ++ String.intercalate ", " (pyReprObj fs) ++ "\x7d"

/-- `repr` of the elements of a list. -/
def pyReprList : List JValue → List String
  | [] => []
  | x :: xs => pyRepr x :: pyReprList xs

/-- `repr` of the entries of a dictionary. -/
def pyReprObj : List (String × JValue) → List String
  | [] => []
  | kv :: fs => (pyReprStr kv.1 ++ ": " ++ pyRepr kv.2) :: pyReprObj fs

end

/-- `convert_values(json_data)` composed with SQLite's TEXT-affinity
storage: strings stay, numbers and booleans are bound and stored as
their text forms, everything else goes through `str(value)`. -/
def convert_values (json_data : List (String × JValue)) : List String :=
  json_data.map (fun p =>
    match p.2 with
    | .str s => s
    | .num n => toString n
    | .bool b => cond b "1" "0"
    | v => pyRepr v)

/-- `get_id_and_column_names` for a single JSON object: the first key
that matches `id` case-insensitively (if any), and all keys. -/
def get_id_and_column_names (json_object : List (String × JValue)) :
    Option String × List String :=
  ((json_object.find? (fun p => strLower p.1 == "id")).map (·.1),
    json_object.map (·.1))

/-- The column list of the `CREATE TABLE` statement built by
`create_table`: the identity field first (when present), then every
column that does not repeat it case-insensitively. -/
def createdColumns (id_field : Option String) (column_names : List String) :
    List String :=
  match id_field with
  | some idf => idf :: column_names.filter (fun c => !(ciEq idf c))
  | none => column_names

/-- The primary key of the created table: the identity field alone, or
the compound key spanning every column when there is none. -/
def createdPk (id_field : Option String) (column_names : List String) :
    List String :=
  match id_field with
  | some idf => [idf]
  | none => column_names

/-- `create_table(cursor, table_name, id_field_name, column_names)`:
`CREATE TABLE IF NOT EXISTS` is a no-op on an existing table; an empty
column list with no identity field, or a case-insensitively duplicated
column, is a SQLite error. -/
def create_table (db : DB) (table_name : String) (id_field : Option String)
    (column_names : List String) : Except Unit DB :=
  if table_exists db table_name then .ok db
  else
    let cols := createdColumns id_field column_names
    if cols.isEmpty then .error ()
    else if hasCIDup cols then .error ()
    else .ok { db with tables :=
      db.tables ++ [⟨table_name, createdPk id_field column_names, cols, []⟩] }

/-- `record_schema_change`: append a `(hash_value, table_name,
column_names)` row to the `schema` registry (the table has no
constraints, so `INSERT OR IGNORE` always inserts). -/
def record_schema_change (db : DB) (hash_value table_name : String)
    (column_names : List String) : DB :=
  { db with schema :=
      db.schema ++ [⟨hash_value, table_name, String.intercalate "," column_names⟩] }

/-- The primary-key projection of a row (NULL for an absent column). -/
def rowPk (pk : List String) (row : List (String × String)) :
    List (Option String) :=
  pk.map (fun c => (row.find? (fun p => ciEq p.1 c)).map (·.2))

/-- Replace a named table's contents. -/
def updateTable (db : DB) (n : String) (f : Table → Table) : DB :=
  { db with tables := db.tables.map (fun t => if t.name == n then f t else t) }

/-- `insert_data(cursor, table_name, column_names, values)`: an
`INSERT OR IGNORE` naming `column_names`.  SQLite errors on an unknown
target table, a column/value count mismatch, an empty or duplicated
column list, or an empty column name; a row whose primary key is already
present is silently ignored; otherwise the row is appended. -/
def insert_data (db : DB) (table_name : String) (column_names : List String)
    (values : List String) : Except Unit DB :=
  match db.tables.find? (fun t => t.name == table_name) with
  | none => .error ()
  | some t =>
    if column_names.length ≠ values.length then .error ()
    else if column_names.isEmpty then .error ()
    else if hasCIDup column_names then .error ()
    else if column_names.any (fun c => !(t.columns.any (fun tc => ciEq tc c))) then .error ()
    else if column_names.any (fun c => c == "") then .error ()
    else
      let row := column_names.zip values
      if t.rows.any (fun r => rowPk t.pkColumns r == rowPk t.pkColumns row) then .ok db
      else .ok (updateTable db table_name (fun u => { u with rows := u.rows ++ [row] }))

/-- `insert_data_single`: insert one JSON object's keys and converted
values. -/
def insert_data_single (db : DB) (table_name : String)
    (json_data : List (String × JValue)) : Except Unit DB :=
  insert_data db table_name (json_data.map (·.1)) (convert_values json_data)

/-- The row a JSON object becomes when inserted. -/
def objRow (json_object : List (String × JValue)) : List (String × String) :=
  (json_object.map (·.1)).zip (convert_values json_object)

/-- `import_single_json_object(cursor, table_name, json_object)`: resolve
the versioned table, create it (and record its schema) when absent,
insert the object, and commit; on any error roll the transaction back —
which restores tables and registry but not the in-memory schema cache.
`none` only when the resolution fuel runs out. -/
def import_single_json_object (fuel : Nat) (db : DB) (table_name : String)
    (json_object : List (String × JValue)) : Option DB :=
  match get_versioned_table_name fuel db table_name
      (get_id_and_column_names json_object).2 with
  | none => none
  | some (tname, hash_value, cache') =>
    match (if table_exists { db with schema_cache := cache' } tname then
        insert_data_single { db with schema_cache := cache' } tname json_object
      else
        match create_table { db with schema_cache := cache' } tname
            (get_id_and_column_names json_object).1
            (get_id_and_column_names json_object).2 with
        | .error e => .error e
        | .ok db₂ =>
          insert_data_single
            (record_schema_change db₂ hash_value tname
              (get_id_and_column_names json_object).2)
            tname json_object) with
    | .ok db'' => some db''
    | .error _ => some { db with schema_cache := cache' }

/-- `import_json_data_to_sqlite` for one file: import each object of the
batch in order under the file's table name (each object is its own
transaction). -/
def import_json_data_to_sqlite (fuel : Nat) (db : DB) (table_name : String) :
    List (List (String × JValue)) → Option DB
  | [] => some db
  | obj :: rest =>
    match import_single_json_object fuel db table_name obj with
    | none => none
    | some db' => import_json_data_to_sqlite fuel db' table_name rest

/-- An object on which every insert attempt fails for reasons intrinsic
to the object: no columns and no identity field (the `PRIMARY KEY ()`
syntax error), case-insensitively duplicated keys, or an empty key. -/
def objBad (json_object : List (String × JValue)) : Bool :=
  (json_object.isEmpty && !(json_object.any (fun p => strLower p.1 == "id"))) ||
    hasCIDup (json_object.map (·.1)) ||
    (json_object.map (·.1)).any (fun c => c == "")

/-- The insert of `json_object` into table `t` fails because some key
names no column of `t` (the only possible failure for a well-formed
object). -/
def insertErr (json_object : List (String × JValue)) (t : Table) : Bool :=
  (json_object.map (·.1)).any (fun c => !(t.columns.any (fun tc => ciEq tc c)))

/-- The object's row is already present in `t` by primary key. -/
def rowPresent (json_object : List (String × JValue)) (t : Table) : Prop :=
  ∃ r ∈ t.rows, rowPk t.pkColumns r = rowPk t.pkColumns (objRow json_object)

/-- Basic well-formedness of a store state, maintained by every import:
every registry row names an existing table, table names are distinct,
and no user table usurps the registry's name or the empty name. -/
def dbInv (db : DB) : Prop :=
  (∀ r ∈ db.schema, table_exists db r.table_name = true) ∧
  (db.tables.map (·.name)).Nodup ∧
  (∀ t ∈ db.tables, t.name ≠ SCHEMA_TABLE ∧ t.name ≠ "")

/-- How one store state extends another across imports: every table
persists with its name, primary key and column set intact and its rows a
subset, and the recorded fingerprint of every existing table is
unchanged. -/
structure Ext (db db' : DB) : Prop where
  tables_mono : ∀ t ∈ db.tables, ∃ t' ∈ db'.tables, t'.name = t.name ∧
    t'.pkColumns = t.pkColumns ∧ t'.columns = t.columns ∧
    ∀ r ∈ t.rows, r ∈ t'.rows
  recorded_stable : ∀ n, table_exists db n = true →
    query_single_value_schema db' n = query_single_value_schema db n

/-- What a completed import attempt of `json_object` under logical name
`tn` guarantees about the resulting state `db` — the invariant that
makes a re-import a no-op: either the object is intrinsically
unwritable, or the probe sequence reaches, at some index `k`, a table
recorded with the object's fingerprint, every earlier probed name being
bound to a different fingerprint, and the object's row is already in
that table (or can never be inserted into it). -/
def ImportFacts (tn : String) (json_object : List (String × JValue))
    (db : DB) : Prop :=
  objBad json_object = true ∨
  ∃ k, 1 ≤ k ∧ table_exists db (probeName tn k) = true ∧
    query_single_value_schema db (probeName tn k) =
      some (calculate_column_names_hash (json_object.map (·.1))) ∧
    (∀ t, db.tables.find? (fun u => u.name == probeName tn k) = some t →
      rowPresent json_object t ∨ insertErr json_object t = true) ∧
    ∀ j, 1 ≤ j → j < k → table_exists db (probeName tn j) = true ∧
      query_single_value_schema db (probeName tn j) ≠
        some (calculate_column_names_hash (json_object.map (·.1)))

/-- A small concrete store used to exercise the resolution theorems: a
`user` table whose recorded fingerprint is that of `{id, email}`. -/
def exampleDB : DB :=
  { tables := [⟨"user", ["id"], ["id", "email"], [[("id", "u1"), ("email", "e")]]⟩],
    schema := [⟨calculate_column_names_hash ["id", "email"], "user", "id,email"⟩],
    schema_cache := [] }

end ChatGPTTool

namespace ChatGPTTool

/-! ## Conversation reconstruction (`get_conversation_messages`)

The reconstructor reads the `mapping` column (a Python-literal string),
parses it with `ast.literal_eval`, and walks parent pointers from
`current_node`.  The embedding models the Python exceptions the code can
raise and uses explicit fuel for the `while` loop (`none` = the loop
never terminates). -/

/-- The Python exceptions reachable from `get_conversation_messages`.
`ast.literal_eval` raises `ValueError`/`SyntaxError` — never the
`json.JSONDecodeError` the surrounding `except` clause names. -/
inductive PyErr where
  | keyErr : PyErr
  | typeErr : PyErr
  | attributeErr : PyErr
  | indexErr : PyErr
  | valueErr : PyErr
  | syntaxErr : PyErr
deriving DecidableEq, Repr

/-- The `\x7b` character. -/
def lbraceChar : Char := Char.ofNat 123

/-- The `\x7d` character. -/
def rbraceChar : Char := Char.ofNat 125

/-- The backslash character. -/
def bsChar : Char := Char.ofNat 92

/-- The single-quote character. -/
def sqChar : Char := Char.ofNat 39

/-- The double-quote character. -/
def dqChar : Char := Char.ofNat 34

/-- Skip Python whitespace. -/
def skipWs : List Char → List Char
  | [] => []
  | c :: cs =>
    if c == ' ' || c == Char.ofNat 10 || c == Char.ofNat 9 || c == Char.ofNat 13 then
      skipWs cs
    else c :: cs

/-- Does the list start with the given word? -/
def charsStartsWith : List Char → List Char → Bool
  | _, [] => true
  | [], _ :: _ => false
  | c :: cs, d :: ds => c == d && charsStartsWith cs ds

/-- Substring test (Python `needle in hay` on strings). -/
def charsContains (needle : List Char) : List Char → Bool
  | [] => needle.isEmpty
  | c :: t => charsStartsWith (c :: t) needle || charsContains needle t

/-- Body of a quoted Python string literal up to the closing quote `q`,
decoding the common backslash escapes (an unknown escape keeps the
backslash, as in Python). `none` = unterminated literal. -/
def parseStringBody (q : Char) : List Char → Option (List Char × List Char)
  | [] => none
  | c :: cs =>
    if c == q then some ([], cs)
    else if c == bsChar then
      match cs with
      | [] => none
      | e :: cs2 =>
        let dec : List Char :=
          if e == 'n' then [Char.ofNat 10]
          else if e == 't' then [Char.ofNat 9]
          else if e == 'r' then [Char.ofNat 13]
          else if e == bsChar then [bsChar]
          else if e == sqChar then [sqChar]
          else if e == dqChar then [dqChar]
          else [bsChar, e]
        match parseStringBody q cs2 with
        | some (body, rest) => some (dec ++ body, rest)
        | none => none
    else
      match parseStringBody q cs with
      | some (body, rest) => some (c :: body, rest)
      | none => none

/-- Leading decimal digits. -/
def takeDigits : List Char → List Char × List Char
  | [] => ([], [])
  | c :: cs =>
    if c.isDigit then
      match takeDigits cs with
      | (ds, r) => (c :: ds, r)
    else ([], c :: cs)

/-- Digits to a natural number. -/
def digitsToNat (ds : List Char) : Nat :=
  ds.foldl (fun a c => a * 10 + (c.toNat - 48)) 0

mutual

/-- `ast.literal_eval` on the literal subgrammar the tool's data uses:
`None`/`True`/`False`, integers, quoted strings, lists and
string-keyed dicts.  Anything else is a syntax error (uncaught, since
the caller only catches `json.JSONDecodeError`). -/
def parseVal : Nat → List Char → Except PyErr (JValue × List Char)
  | 0, _ => .error .syntaxErr
  | fuel + 1, s =>
    match skipWs s with
    | [] => .error .syntaxErr
    | c :: cs =>
      if charsStartsWith (c :: cs) ("None".data) then
        .ok (.null, (c :: cs).drop 4)
      else if charsStartsWith (c :: cs) ("True".data) then
        .ok (.bool true, (c :: cs).drop 4)
      else if charsStartsWith (c :: cs) ("False".data) then
        .ok (.bool false, (c :: cs).drop 5)
      else if c == sqChar || c == dqChar then
        match parseStringBody c cs with
        | some (body, rest) => .ok (.str ⟨body⟩, rest)
        | none => .error .syntaxErr
      else if c == '-' then
        match takeDigits cs with
        | ([], _) => .error .syntaxErr
        | (ds, r) => .ok (.num (-(digitsToNat ds : Int)), r)
      else if c.isDigit then
        match takeDigits (c :: cs) with
        | (ds, r) => .ok (.num (digitsToNat ds : Int), r)
      else if c == '[' then
        parseListRest fuel cs true
      else if c == lbraceChar then
        parseDictRest fuel cs true
      else .error .syntaxErr

/-- The elements of a list literal after `[` (or after a comma).
`first` is true before the first element, allowing `]` immediately and
after a trailing comma. -/
def parseListRest : Nat → List Char → Bool → Except PyErr (JValue × List Char)
  | 0, _, _ => .error .syntaxErr
  | fuel + 1, s, first =>
    match skipWs s with
    | [] => .error .syntaxErr
    | c :: cs =>
      if c == ']' then
        if first then .ok (.arr [], cs) else .error .syntaxErr
      else
        match parseVal fuel (c :: cs) with
        | .error e => .error e
        | .ok (v, rest) =>
          match skipWs rest with
          | [] => .error .syntaxErr
          | d :: ds =>
            if d == ']' then .ok (.arr [v], ds)
            else if d == ',' then
              match skipWs ds with
              | e :: es =>
                if e == ']' then .ok (.arr [v], es)
                else
                  match parseListRest fuel (e :: es) false with
                  | .error err => .error err
                  | .ok (.arr vs, rest2) => .ok (.arr (v :: vs), rest2)
                  | .ok _ => .error .syntaxErr
              | [] => .error .syntaxErr
            else .error .syntaxErr

/-- The entries of a dict literal after `\x7b` (or after a comma). -/
def parseDictRest : Nat → List Char → Bool → Except PyErr (JValue × List Char)
  | 0, _, _ => .error .syntaxErr
  | fuel + 1, s, first =>
    match skipWs s with
    | [] => .error .syntaxErr
    | c :: cs =>
      if c == rbraceChar then
        if first then .ok (.obj [], cs) else .error .syntaxErr
      else if c == sqChar || c == dqChar then
        match parseStringBody c cs with
        | none => .error .syntaxErr
        | some (key, rest) =>
          match skipWs rest with
          | ':' :: rest2 =>
            match parseVal fuel rest2 with
            | .error e => .error e
            | .ok (v, rest3) =>
              match skipWs rest3 with
              | [] => .error .syntaxErr
              | d :: ds =>
                if d == rbraceChar then .ok (.obj [(⟨key⟩, v)], ds)
                else if d == ',' then
                  match skipWs ds with
                  | e :: es =>
                    if e == rbraceChar then .ok (.obj [(⟨key⟩, v)], es)
                    else
                      match parseDictRest fuel (e :: es) false with
                      | .error err => .error err
                      | .ok (.obj kvs, rest4) => .ok (.obj ((⟨key⟩, v) :: kvs), rest4)
                      | .ok _ => .error .syntaxErr
                  | [] => .error .syntaxErr
                else .error .syntaxErr
          | _ => .error .syntaxErr
      else .error .syntaxErr

end

/-- `ast.literal_eval` of a whole string: one literal, possibly padded by
whitespace. -/
def literalEval (s : String) : Except PyErr JValue :=
  match parseVal (4 * s.data.length + 4) s.data with
  | .error e => .error e
  | .ok (v, rest) =>
    match skipWs rest with
    | [] => .ok v
    | _ :: _ => .error .syntaxErr

/-- Python `"k" in v` for a string key: key test on a dict, substring
test on a string, membership on a list, `TypeError` otherwise. -/
def pyInStr (k : String) : JValue → Except PyErr Bool
  | .obj fs => .ok (fs.any (fun p => p.1 == k))
  | .str s => .ok (charsContains k.data s.data)
  | .arr xs => .ok (xs.any (fun x => match x with | .str s => s == k | _ => false))
  | _ => .error .typeErr

/-- Python `v["k"]`: dict lookup (`KeyError` when absent), `TypeError`
on any non-dict. -/
def pySubscript : JValue → String → Except PyErr JValue
  | .obj fs, k =>
    match objGet fs k with
    | some v => .ok v
    | none => .error .keyErr
  | _, _ => .error .typeErr

/-- Python `v[0]`: first element (`IndexError` when empty) on lists and
strings, `KeyError` on a string-keyed dict, `TypeError` otherwise. -/
def pyIndex0 : JValue → Except PyErr JValue
  | .arr [] => .error .indexErr
  | .arr (x :: _) => .ok x
  | .str s =>
    match s.data with
    | [] => .error .indexErr
    | c :: _ => .ok (.str ⟨[c]⟩)
  | .obj _ => .error .keyErr
  | _ => .error .typeErr

/-- The body of the `if node and "message" in node and node["message"]`
block for a dict node: extract one message (possibly raising) and return
the grown accumulator, in the order the source evaluates. -/
def extractMsg (cur : JValue) (nfs : List (String × JValue))
    (acc : List JValue) : Except PyErr (List JValue) :=
  match objGet nfs "message" with
  | none => .ok acc
  | some m =>
    if pyTruthy m = false then .ok acc
    else
      match pyInStr "author" m with
      | .error e => .error e
      | .ok false => .ok acc
      | .ok true =>
        match pyInStr "content" m with
        | .error e => .error e
        | .ok false => .ok acc
        | .ok true =>
          match pySubscript m "author" with
          | .error e => .error e
          | .ok av =>
            match pySubscript av "role" with
            | .error e => .error e
            | .ok role =>
              let ts : JValue :=
                match m with
                | .obj mfs =>
                  match objGet mfs "create_time" with
                  | some t => t
                  | none => .num 0
                | _ => .num 0
              match pySubscript m "content" with
              | .error e => .error e
              | .ok content =>
                match pyInStr "content_type" content with
                | .error e => .error e
                | .ok false => .ok acc
                | .ok true =>
                  match pySubscript content "content_type" with
                  | .error e => .error e
                  | .ok ctv =>
                    if (match ctv with | .str s => s == "text" | _ => false) = false then
                      .ok acc
                    else
                      match pyInStr "parts" content with
                      | .error e => .error e
                      | .ok false => .ok acc
                      | .ok true =>
                        match pySubscript content "parts" with
                        | .error e => .error e
                        | .ok parts =>
                          match pyIndex0 parts with
                          | .error e => .error e
                          | .ok text =>
                            .ok (acc ++ [JValue.obj [("id", cur), ("author", role),
                              ("timestamp", ts), ("text", text)]])

/-- The `while current_node is not None` walk.  `none` means the loop
runs forever (the fuel is irrelevant for every terminating input).  A
dangling parent reference makes `mapping.get` return `None`, and the
unconditional `node.get("parent")` then raises `AttributeError`. -/
def walkNodes : Nat → JValue → JValue → List JValue →
    Option (Except PyErr (List JValue))
  | 0, _, _, _ => none
  | fuel + 1, mapping, cur, acc =>
    match cur with
    | .null => some (.ok acc)
    | .arr _ => some (.error .typeErr)
    | .obj _ => some (.error .typeErr)
    | _ =>
      match mapping with
      | .obj mfs =>
        let node? : Option JValue :=
          match cur with
          | .str s => objGet mfs s
          | _ => none
        match node? with
        | none => some (.error .attributeErr)
        | some node =>
          if pyTruthy node = false then
            match node with
            | .obj nfs =>
              walkNodes fuel mapping
                (match objGet nfs "parent" with | some p => p | none => .null) acc
            | _ => some (.error .attributeErr)
          else
            match node with
            | .obj nfs =>
              match extractMsg cur nfs acc with
              | .error e => some (.error e)
              | .ok acc2 =>
                walkNodes fuel mapping
                  (match objGet nfs "parent" with | some p => p | none => .null) acc2
            | .str s =>
              if charsContains ("message".data) s.data then some (.error .typeErr)
              else some (.error .attributeErr)
            | .arr xs =>
              if xs.any (fun x => match x with | .str t => t == "message" | _ => false) then
                some (.error .typeErr)
              else some (.error .attributeErr)
            | _ => some (.error .typeErr)
      | _ => some (.error .attributeErr)

/-- `get_conversation_messages(conversation_data)`: guard on a missing or
falsy `mapping` (the warning text reads `conversation_data["id"]`),
parse the mapping string with `ast.literal_eval` (whose errors the
`except json.JSONDecodeError` clause can never catch), then walk parent
pointers from `current_node` and reverse the collected messages. -/
def get_conversation_messages (fuel : Nat)
    (conversation_data : List (String × JValue)) :
    Option (Except PyErr (List JValue)) :=
  match objGet conversation_data "mapping" with
  | none =>
    match objGet conversation_data "id" with
    | none => some (.error .keyErr)
    | some _ => some (.ok [])
  | some mv =>
    if pyTruthy mv = false then
      match objGet conversation_data "id" with
      | none => some (.error .keyErr)
      | some _ => some (.ok [])
    else
      match mv with
      | .str s =>
        match literalEval s with
        | .error e => some (.error e)
        | .ok mapping =>
          match objGet conversation_data "current_node" with
          | none => some (.error .keyErr)
          | some cur =>
            match walkNodes fuel mapping cur [] with
            | none => none
            | some (.error e) => some (.error e)
            | some (.ok msgs) => some (.ok msgs.reverse)
      | _ => some (.error .valueErr)

end ChatGPTTool

namespace ChatGPTTool

/-! ## Conversation lookup (`get_matching_conversations`) -/

/-- SQLite `LIKE`: `%` matches any sequence, `_` any single character,
plain characters match ASCII case-insensitively.  The fuel (pattern
length + string length suffices) only bounds the recursion. -/
def likeMatch : Nat → List Char → List Char → Bool
  | 0, _, _ => false
  | _ + 1, [], s => s.isEmpty
  | f + 1, p :: ps, s =>
    if p == '%' then
      likeMatch f ps s ||
        (match s with
         | [] => false
         | _ :: t => likeMatch f (p :: ps) t)
    else
      match s with
      | [] => false
      | c :: t => (p == '_' || p.toLower == c.toLower) && likeMatch f ps t

/-- `LIKE` on strings. -/
def likeStr (pat s : String) : Bool :=
  likeMatch (pat.data.length + s.data.length + 1) pat.data s.data

/-- One row of the `SELECT id, create_time, title` result attributed to
its table (the `Conversation` objects the lookup returns). -/
structure Conversation where
  table : String
  id : String
  create_time : Int
  title : String
deriving DecidableEq, Repr

/-- A conversations table as the lookup sees it: its name and its
`(id, create_time, title)` rows in storage order. -/
structure ConvTable where
  name : String
  rows : List (String × Int × String)
deriving DecidableEq, Repr

/-- `get_table_names(cursor, filter_prefix=CHAT_TABLE)`: the tables
whose name is `LIKE 'conversations%'`. -/
def chatTables (tabs : List ConvTable) : List ConvTable :=
  tabs.filter (fun t => likeStr "conversations%" t.name)

/-- The `if row[0] not in unique_ids` accumulation: keep the first
occurrence of each id, in iteration order. -/
def dedupAppend : List (String × (String × Int × String)) → List String →
    List Conversation
  | [], _ => []
  | (tb, (i, ct, ti)) :: rest, seen =>
    if seen.contains i then dedupAppend rest seen
    else ⟨tb, i, ct, ti⟩ :: dedupAppend rest (i :: seen)

/-- The row iteration of `get_matching_conversations`, in source order:
prefixes outer, tables inner, each table's rows filtered by
`id LIKE 'prefix%'`; with no prefixes, every row of every table. -/
def gatherRows (tabs : List ConvTable) (prefixes : List String) :
    List (String × (String × Int × String)) :=
  if prefixes.isEmpty then
    (chatTables tabs).flatMap (fun t => t.rows.map (fun r => (t.name, r)))
  else
    prefixes.flatMap (fun p =>
      (chatTables tabs).flatMap (fun t =>
        (t.rows.filter (fun r => likeStr (p ++ "%") r.1)).map (fun r => (t.name, r))))

/-- `get_matching_conversations(cursor, prefixes)`: gather matching rows
deduplicated by id (first hit wins), then a stable ascending sort by
`create_time` (`list.sort` with that key; any stable sort computes the
same list). -/
def get_matching_conversations (tabs : List ConvTable)
    (prefixes : List String) : List Conversation :=
  List.insertionSort (fun a b => a.create_time ≤ b.create_time)
    (dedupAppend (gatherRows tabs prefixes) [])

end ChatGPTTool

namespace ChatGPTTool

/-! # Theorems -/

/-- `charsLe` is total. -/
theorem charsLe_total : ∀ as bs : List Char, charsLe as bs = true ∨ charsLe bs as = true := by
  intro as
  induction as with
  | nil => intro bs; left; rfl
  | cons a as ih =>
    intro bs
    cases bs with
    | nil => right; rfl
    | cons b bs =>
      rcases lt_trichotomy a b with h | h | h
      · left; simp only [charsLe]; rw [if_pos h]
      · subst h
        rcases ih bs with h' | h' <;> [left; right] <;>
          (simp only [charsLe]; rw [if_neg (lt_irrefl a), if_neg (lt_irrefl a)]; exact h')
      · right; simp only [charsLe]; rw [if_pos h]

/-- `charsLe` is transitive. -/
theorem charsLe_trans : ∀ as bs cs : List Char,
    charsLe as bs = true → charsLe bs cs = true → charsLe as cs = true := by
  intro as
  induction as with
  | nil => intro bs cs _ _; rfl
  | cons a as ih =>
    intro bs cs h₁ h₂
    cases bs with
    | nil => exact absurd h₁ (by simp [charsLe])
    | cons b bs =>
      cases cs with
      | nil => exact absurd h₂ (by simp [charsLe])
      | cons c cs =>
        simp only [charsLe] at h₁ h₂ ⊢
        by_cases hab : a < b
        · have hac : a < c := by
            by_cases hbc : b < c
            · exact lt_trans hab hbc
            · rw [if_neg hbc] at h₂
              by_cases hcb : c < b
              · rw [if_pos hcb] at h₂; exact Bool.noConfusion h₂
              · have hbc' : b = c := le_antisymm (not_lt.1 hcb) (not_lt.1 hbc)
                exact hbc' ▸ hab
          rw [if_pos hac]
        · rw [if_neg hab] at h₁
          by_cases hba : b < a
          · rw [if_pos hba] at h₁; exact Bool.noConfusion h₁
          · rw [if_neg hba] at h₁
            have hab' : a = b := le_antisymm (not_lt.1 hba) (not_lt.1 hab)
            subst hab'
            by_cases hac : a < c
            · rw [if_pos hac]
            · rw [if_neg hac] at h₂ ⊢
              by_cases hca : c < a
              · rw [if_pos hca] at h₂; exact Bool.noConfusion h₂
              · rw [if_neg hca] at h₂ ⊢
                exact ih bs cs h₁ h₂

/-- `charsLe` is antisymmetric. -/
theorem charsLe_antisymm : ∀ as bs : List Char,
    charsLe as bs = true → charsLe bs as = true → as = bs := by
  intro as
  induction as with
  | nil =>
    intro bs _ h
    cases bs with
    | nil => rfl
    | cons b bs => exact absurd h (by simp [charsLe])
  | cons a as ih =>
    intro bs h₁ h₂
    cases bs with
    | nil => exact absurd h₁ (by simp [charsLe])
    | cons b bs =>
      simp only [charsLe] at h₁ h₂
      by_cases hab : a < b
      · have hba : ¬ b < a := asymm hab
        rw [if_neg hba, if_pos hab] at h₂
        exact Bool.noConfusion h₂
      · by_cases hba : b < a
        · rw [if_neg hab, if_pos hba] at h₁
          exact Bool.noConfusion h₁
        · have hab' : a = b := le_antisymm (not_lt.1 hba) (not_lt.1 hab)
          subst hab'
          rw [if_neg hab, if_neg hab] at h₁ h₂
          rw [ih bs h₁ h₂]

/-- Claim C3, as stated, is false: the fingerprint concatenates the
sorted column names with no separator, so the collections `{"ab"}` and
`{"a","b"}` differ as sets yet receive the identical digest. -/
theorem c3_counterexample :
    calculate_column_names_hash ["ab"] = calculate_column_names_hash ["a", "b"] ∧
    (["ab"] : List String).toFinset ≠ (["a", "b"] : List String).toFinset := by
  constructor
  · decide
  · decide

/-- Claim C3 (amended): the fingerprint is invariant under permutation of
the column-name list — two column-name lists that are permutations of
each other always fingerprint identically.  (The second half of the
original claim, that collections differing as sets always fingerprint
differently, is refuted by `c3_counterexample`.) -/
theorem c3_fingerprint_perm_invariant (l₁ l₂ : List String) (h : l₁.Perm l₂) :
    calculate_column_names_hash l₁ = calculate_column_names_hash l₂ := by
  unfold calculate_column_names_hash
  haveI : IsTotal String pyStrLe := ⟨fun a b => charsLe_total a.data b.data⟩
  haveI : IsTrans String pyStrLe :=
    ⟨fun a b c h₁ h₂ => charsLe_trans a.data b.data c.data h₁ h₂⟩
  haveI : IsAntisymm String pyStrLe :=
    ⟨fun a b h₁ h₂ => by
      cases a with
      | mk da => cases b with
        | mk db =>
          have := charsLe_antisymm da db h₁ h₂
          rw [this]⟩
  have hs₁ : List.Sorted pyStrLe (pySorted l₁) := List.sorted_insertionSort _ l₁
  have hs₂ : List.Sorted pyStrLe (pySorted l₂) := List.sorted_insertionSort _ l₂
  have hs : pySorted l₁ = pySorted l₂ :=
    List.eq_of_perm_of_sorted
      (((List.perm_insertionSort _ l₁).trans h).trans
        (List.perm_insertionSort _ l₂).symm) hs₁ hs₂
  have he : l₁.isEmpty = l₂.isEmpty := by
    cases l₁ with
    | nil => simp [h.nil_eq.symm]
    | cons x xs =>
      cases l₂ with
      | nil => exact absurd h.symm.nil_eq (by simp)
      | cons y ys => rfl
  rw [hs, he]

/-- Witness for `c3_fingerprint_perm_invariant` at a concrete pair of
permuted lists. -/
theorem c3_fingerprint_perm_invariant_witness :
    calculate_column_names_hash ["b", "a"] = calculate_column_names_hash ["a", "b"] :=
  c3_fingerprint_perm_invariant ["b", "a"] ["a", "b"] (by decide)

/-- Claim C9, as stated, is false: for the input path `chat.json` the
claimed name is `chat`, but the code additionally applies the
`TABLE_MAPPING` lookup and stores under `conversations`; and for
`a-.json` the code also strips trailing underscores. -/
theorem c9_counterexample :
    get_table_name "chat.json" = "conversations" ∧
    claimC9TableName "chat.json" = "chat" ∧
    get_table_name "a-.json" = "a" ∧
    claimC9TableName "a-.json" = "a_" := by
  refine ⟨by decide, by decide, by decide, by decide⟩

/-- Claim C9 (amended): the stored table name is the sanitized,
extension-stripped base name with leading and trailing underscores
stripped and the fixed table mapping applied; in particular every
character of the resulting name is alphanumeric or an underscore. -/
theorem c9_amended (p : String) :
    get_table_name p = amendedTableName p ∧
    (get_table_name p).data.all validChar := by
  refine ⟨rfl, ?_⟩
  have hsan : ∀ s : String, (sanitizeName s).data.all validChar := by
    intro s
    simp only [sanitizeName, List.all_eq_true, List.mem_map]
    rintro c ⟨d, _, rfl⟩
    by_cases h : validChar d
    · rw [if_pos h]; exact h
    · rw [if_neg h]; decide
  have hstrip : ∀ s : String, s.data.all validChar →
      (stripUnderscores s).data.all validChar := by
    intro s hall
    simp only [stripUnderscores, List.all_eq_true] at hall ⊢
    intro c hc
    apply hall
    have h1 := List.dropWhile_sublist (l := s.data) (p := (· == '_'))
    have h2 := List.dropWhile_sublist
      (l := (s.data.dropWhile (· == '_')).reverse) (p := (· == '_'))
    have h3 : c ∈ (s.data.dropWhile (· == '_')).reverse := by
      rw [List.mem_reverse] at hc
      exact h2.mem hc
    rw [List.mem_reverse] at h3
    exact h1.mem h3
  have key : ∀ tn : String, tn.data.all validChar →
      (applyTableMapping tn).data.all validChar := by
    intro tn htn
    unfold applyTableMapping
    cases hfind : TABLE_MAPPING.find? (fun q => q.1 = tn) with
    | none => simpa [hfind] using htn
    | some q =>
      have hq := List.mem_of_find?_eq_some hfind
      have hq' : q = ("chat", "conversations") ∨ q = ("user", "user") := by
        simpa [TABLE_MAPPING] using hq
      rcases hq' with rfl | rfl <;> simp [Option.getD] <;> decide
  exact key _ (hstrip _ (hsan _))

end ChatGPTTool


namespace ChatGPTTool

/-- The probe loop of `get_versioned_table_name` returns the first name
in the sequence `tn, tn_v2, tn_v3, …` that is unbound or recorded with
the supplied fingerprint, provided the cache is consistent with the
registry and some such name is within fuel range. -/
theorem resolveLoop_first_good (db : DB) (tn h : String)
    (hcc : ∀ n v, cacheLookup db.schema_cache n = some v →
      query_single_value_schema db n = some v) :
    ∀ fuel v, 1 ≤ v →
    (∃ k, v ≤ k ∧ k < v + fuel ∧ claimGood db h (probeName tn k) = true) →
    ∃ k cache', v ≤ k ∧
      resolveLoop db tn h db.schema_cache fuel v = some (probeName tn k, cache') ∧
      claimGood db h (probeName tn k) = true ∧
      ∀ j, v ≤ j → j < k → claimGood db h (probeName tn j) = false := by
  intro fuel
  induction fuel with
  | zero =>
    intro v _ hreach
    rcases hreach with ⟨k, hk₁, hk₂, _⟩
    omega
  | succ fuel ih =>
    intro v hv hreach
    rw [resolveLoop]
    by_cases hex : table_exists db (probeName tn v) = true
    · rw [if_pos hex]
      by_cases hcache : cacheLookup db.schema_cache (probeName tn v) == some h
      · rw [if_pos hcache]
        have hq : query_single_value_schema db (probeName tn v) = some h :=
          hcc _ _ (by simpa using hcache)
        refine ⟨v, db.schema_cache, le_refl v, rfl, ?_, fun j h₁ h₂ => absurd (lt_of_le_of_lt h₁ h₂) (lt_irrefl v)⟩
        simp [claimGood, hq]
      · rw [if_neg hcache]
        by_cases hq : query_single_value_schema db (probeName tn v) == some h
        · rw [if_pos hq]
          refine ⟨v, cacheInsert db.schema_cache (probeName tn v) h, le_refl v, rfl, ?_,
            fun j h₁ h₂ => absurd (lt_of_le_of_lt h₁ h₂) (lt_irrefl v)⟩
          simp only [claimGood, Bool.or_eq_true]
          right
          exact hq
        · rw [if_neg hq]
          have hbadv : claimGood db h (probeName tn v) = false := by
            simp only [claimGood, Bool.or_eq_true, Bool.not_eq_true']
            rw [Bool.or_eq_false_iff]
            refine ⟨by simpa using hex, by simpa using hq⟩
          have hreach' : ∃ k, v + 1 ≤ k ∧ k < (v + 1) + fuel ∧
              claimGood db h (probeName tn k) = true := by
            rcases hreach with ⟨k, hk₁, hk₂, hk₃⟩
            refine ⟨k, ?_, by omega, hk₃⟩
            rcases Nat.eq_or_lt_of_le hk₁ with rfl | hlt
            · rw [hbadv] at hk₃; exact absurd hk₃ (by simp)
            · omega
          rcases ih (v + 1) (by omega) hreach' with ⟨k, cache', hk₁, heq, hgood, hmin⟩
          refine ⟨k, cache', by omega, heq, hgood, ?_⟩
          intro j hj₁ hj₂
          rcases Nat.eq_or_lt_of_le hj₁ with rfl | hlt
          · exact hbadv
          · exact hmin j (by omega) hj₂
    · rw [if_neg hex]
      refine ⟨v, db.schema_cache, le_refl v, rfl, ?_,
        fun j h₁ h₂ => absurd (lt_of_le_of_lt h₁ h₂) (lt_irrefl v)⟩
      simp only [claimGood, Bool.or_eq_true, Bool.not_eq_true']
      left
      simpa using hex

/-- Claim C4: table resolution returns the logical name itself when no
table is bound to it or its recorded fingerprint equals the supplied
one; otherwise it probes `name_v2`, `name_v3`, … in increasing order and
returns the first name that is unbound or already recorded with the
supplied fingerprint.  (Stated as: the returned name is the first
probed name satisfying that condition, assuming the in-memory cache is
consistent with the registry and some satisfying name is within fuel
range.) -/
theorem c4_resolution_first_fit (fuel : Nat) (db : DB) (table_name : String)
    (column_names : List String) (hcc : cacheConsistent db)
    (hreach : ∃ k, 1 ≤ k ∧ k < 1 + fuel ∧
      claimGood db (calculate_column_names_hash column_names)
        (probeName table_name k) = true) :
    ∃ k cache', 1 ≤ k ∧
      get_versioned_table_name fuel db table_name column_names =
        some (probeName table_name k,
          calculate_column_names_hash column_names, cache') ∧
      claimGood db (calculate_column_names_hash column_names)
        (probeName table_name k) = true ∧
      ∀ j, 1 ≤ j → j < k →
        claimGood db (calculate_column_names_hash column_names)
          (probeName table_name j) = false := by
  rcases resolveLoop_first_good db table_name
      (calculate_column_names_hash column_names) hcc fuel 1 (le_refl 1) hreach with
    ⟨k, cache', hk, heq, hgood, hmin⟩
  refine ⟨k, cache', hk, ?_, hgood, hmin⟩
  simp only [get_versioned_table_name]
  rw [heq]
  rfl

/-- Witness for `c4_resolution_first_fit`: on `exampleDB`, importing
columns `{id, phone}` under logical name `user` probes past the
differently-fingerprinted `user` table and resolves `user_v2`. -/
theorem c4_resolution_first_fit_witness :
    cacheConsistent exampleDB ∧
    ∃ k cache', 1 ≤ k ∧
      get_versioned_table_name 3 exampleDB "user" ["id", "phone"] =
        some (probeName "user" k,
          calculate_column_names_hash ["id", "phone"], cache') ∧
      claimGood exampleDB (calculate_column_names_hash ["id", "phone"])
        (probeName "user" k) = true ∧
      ∀ j, 1 ≤ j → j < k →
        claimGood exampleDB (calculate_column_names_hash ["id", "phone"])
          (probeName "user" j) = false := by
  have hcc : cacheConsistent exampleDB := by
    intro n v hnv
    simp [exampleDB, cacheLookup] at hnv
  exact ⟨hcc, c4_resolution_first_fit 3 exampleDB "user" ["id", "phone"] hcc
    ⟨2, by decide, by decide, by decide⟩⟩

end ChatGPTTool

namespace ChatGPTTool

/-- Inverse characterization of the probe loop: a completed probe stopped
at some index `k`, for one of the three stop reasons (unbound name,
cache hit, registry hit), every earlier probed name having failed all
three. -/
theorem resolveLoop_spec (db : DB) (tn h : String) (cache : List (String × String)) :
    ∀ fuel v res c', resolveLoop db tn h cache fuel v = some (res, c') →
    ∃ k, v ≤ k ∧ res = probeName tn k ∧
      ((table_exists db (probeName tn k) = false ∧ c' = cache) ∨
       (table_exists db (probeName tn k) = true ∧
         cacheLookup cache (probeName tn k) = some h ∧ c' = cache) ∨
       (table_exists db (probeName tn k) = true ∧
         cacheLookup cache (probeName tn k) ≠ some h ∧
         query_single_value_schema db (probeName tn k) = some h ∧
         c' = cacheInsert cache (probeName tn k) h)) ∧
      ∀ j, v ≤ j → j < k → table_exists db (probeName tn j) = true ∧
        cacheLookup cache (probeName tn j) ≠ some h ∧
        query_single_value_schema db (probeName tn j) ≠ some h := by
  intro fuel
  induction fuel with
  | zero => intro v res c' hres; exact absurd hres (by simp [resolveLoop])
  | succ fuel ih =>
    intro v res c' hres
    rw [resolveLoop] at hres
    by_cases hex : table_exists db (probeName tn v) = true
    · rw [if_pos hex] at hres
      by_cases hcache : (cacheLookup cache (probeName tn v) == some h) = true
      · rw [if_pos hcache] at hres
        injection hres with hpair
        injection hpair with h1 h2
        subst h1; subst h2
        exact ⟨v, le_refl v, rfl,
          Or.inr (Or.inl ⟨hex, by simpa using hcache, rfl⟩),
          fun j h1 h2 => absurd (lt_of_le_of_lt h1 h2) (lt_irrefl v)⟩
      · rw [if_neg hcache] at hres
        by_cases hq : (query_single_value_schema db (probeName tn v) == some h) = true
        · rw [if_pos hq] at hres
          injection hres with hpair
          injection hpair with h1 h2
          subst h1; subst h2
          exact ⟨v, le_refl v, rfl,
            Or.inr (Or.inr ⟨hex, by simpa using hcache, by simpa using hq, rfl⟩),
            fun j h1 h2 => absurd (lt_of_le_of_lt h1 h2) (lt_irrefl v)⟩
        · rw [if_neg hq] at hres
          rcases ih (v + 1) res c' hres with ⟨k, hk, hres', hstop, hmin⟩
          refine ⟨k, by omega, hres', hstop, ?_⟩
          intro j h1 h2
          rcases Nat.eq_or_lt_of_le h1 with rfl | hlt
          · exact ⟨hex, by simpa using hcache, by simpa using hq⟩
          · exact hmin j (by omega) h2
    · rw [if_neg hex] at hres
      injection hres with hpair
      injection hpair with h1 h2
      subst h1; subst h2
      exact ⟨v, le_refl v, rfl,
        Or.inl ⟨by simpa using hex, rfl⟩,
        fun j h1 h2 => absurd (lt_of_le_of_lt h1 h2) (lt_irrefl v)⟩

end ChatGPTTool

namespace ChatGPTTool

/-- Setting the schema cache does not change which tables exist. -/
theorem table_exists_setCache (db : DB) (c : List (String × String)) (n : String) :
    table_exists { db with schema_cache := c } n = table_exists db n := rfl

/-- Setting the schema cache does not change the recorded fingerprints. -/
theorem query_setCache (db : DB) (c : List (String × String)) (n : String) :
    query_single_value_schema { db with schema_cache := c } n =
      query_single_value_schema db n := rfl

set_option maxHeartbeats 1000000 in
/-- Case analysis of a successful `import_single_json_object`: the probe
loop completed at some index `k`, and the transaction either inserted
into the existing table `probeName tn k`, rolled back after a failed
insert, or took the create path (creating, recording, then inserting, or
rolling back). -/
theorem import_cases (fuel : Nat) (db : DB) (tn : String)
    (obj : List (String × JValue)) (db' : DB)
    (h : import_single_json_object fuel db tn obj = some db') :
    ∃ k c',
      resolveLoop db tn (calculate_column_names_hash (obj.map (·.1)))
        db.schema_cache fuel 1 = some (probeName tn k, c') ∧ 1 ≤ k ∧
      ((table_exists db (probeName tn k) = true ∧
         insert_data_single { db with schema_cache := c' } (probeName tn k) obj = .ok db') ∨
       (table_exists db (probeName tn k) = true ∧
         insert_data_single { db with schema_cache := c' } (probeName tn k) obj = .error () ∧
         db' = { db with schema_cache := c' }) ∨
       (table_exists db (probeName tn k) = false ∧
        ((∃ db₂, create_table { db with schema_cache := c' } (probeName tn k)
            (get_id_and_column_names obj).1 (obj.map (·.1)) = .ok db₂ ∧
          (insert_data_single
              (record_schema_change db₂
                (calculate_column_names_hash (obj.map (·.1)))
                (probeName tn k) (obj.map (·.1)))
              (probeName tn k) obj = .ok db' ∨
           (insert_data_single
              (record_schema_change db₂
                (calculate_column_names_hash (obj.map (·.1)))
                (probeName tn k) (obj.map (·.1)))
              (probeName tn k) obj = .error () ∧
            db' = { db with schema_cache := c' }))) ∨
         (create_table { db with schema_cache := c' } (probeName tn k)
            (get_id_and_column_names obj).1 (obj.map (·.1)) = .error () ∧
          db' = { db with schema_cache := c' })))) := by
  unfold import_single_json_object at h
  rcases hres : get_versioned_table_name fuel db tn (get_id_and_column_names obj).2 with _ | ⟨tname, hv, c'⟩
  · rw [hres] at h; exact absurd h (by simp)
  · rw [hres] at h
    have hcols : (get_id_and_column_names obj).2 = obj.map (·.1) := rfl
    rw [hcols] at hres
    simp only [get_versioned_table_name] at hres
    generalize hH : calculate_column_names_hash (obj.map (·.1)) = H at hres ⊢
    rcases hloop : resolveLoop db tn H db.schema_cache fuel 1 with _ | ⟨rn, rc⟩
    · rw [hloop] at hres; exact absurd hres (by simp)
    · rw [hloop] at hres
      simp only [Option.map_some', Option.some.injEq, Prod.mk.injEq] at hres
      obtain ⟨h1, h2, h3⟩ := hres
      subst h1; subst h2; subst h3
      rcases resolveLoop_spec db tn H db.schema_cache fuel 1
          rn rc hloop with ⟨k, hk1, hkres, _, _⟩
      subst hkres
      refine ⟨k, rc, rfl, hk1, ?_⟩
      dsimp only at h
      by_cases hex : table_exists db (probeName tn k) = true
      · rw [if_pos (by rw [table_exists_setCache]; exact hex)] at h
        rcases hins : insert_data_single { db with schema_cache := rc }
            (probeName tn k) obj with e | dbo
        · rw [hins] at h
          dsimp only at h
          injection h with h
          cases e
          exact Or.inr (Or.inl ⟨hex, rfl, h.symm⟩)
        · rw [hins] at h
          dsimp only at h
          injection h with h
          exact Or.inl ⟨hex, by rw [h]⟩
      · rw [if_neg (by rw [table_exists_setCache]; exact hex)] at h
        rcases hcr : create_table { db with schema_cache := rc } (probeName tn k)
            (get_id_and_column_names obj).1 (get_id_and_column_names obj).2 with e | db₂
        · rw [hcr] at h
          dsimp only at h
          injection h with h
          cases e
          exact Or.inr (Or.inr ⟨by simpa using hex, Or.inr ⟨by rw [← hcols, hcr], h.symm⟩⟩)
        · rw [hcr] at h
          dsimp only at h
          rcases hins : insert_data_single
              (record_schema_change db₂ H
                (probeName tn k) (get_id_and_column_names obj).2)
              (probeName tn k) obj with e | dbo
          · rw [hins] at h
            dsimp only at h
            injection h with h
            cases e
            exact Or.inr (Or.inr ⟨by simpa using hex,
              Or.inl ⟨db₂, by rw [← hcols]; exact hcr,
                Or.inr ⟨by rw [← hcols, hins], h.symm⟩⟩⟩)
          · rw [hins] at h
            dsimp only at h
            injection h with h
            exact Or.inr (Or.inr ⟨by simpa using hex,
              Or.inl ⟨db₂, by rw [← hcols]; exact hcr,
                Or.inl (by rw [← hcols, hins, h])⟩⟩)

end ChatGPTTool

namespace ChatGPTTool

/-- A probed name is never the empty string when the logical name is
nonempty. -/
theorem probeName_ne_empty (tn : String) (k : Nat) (h : tn ≠ "") :
    probeName tn k ≠ "" := by
  unfold probeName
  by_cases hk : k = 1
  · rw [if_pos hk]; exact h
  · rw [if_neg hk]
    intro heq
    have hlen := congrArg String.length heq
    simp [String.length_append] at hlen
    exact absurd hlen.1.2 (by decide)

/-- Suffixed probe names are never the empty string. -/
theorem probeName_v_ne_empty (tn : String) (k : Nat) (h : k ≠ 1) :
    probeName tn k ≠ "" := by
  unfold probeName
  rw [if_neg h]
  intro heq
  have hlen := congrArg String.length heq
  simp [String.length_append] at hlen
  exact absurd hlen.1.2 (by decide)

/-- Unfolding of `table_exists` into a membership statement. -/
theorem table_exists_iff (db : DB) (n : String) :
    table_exists db n = true ↔ n = SCHEMA_TABLE ∨ ∃ t ∈ db.tables, t.name = n := by
  simp [table_exists, List.any_eq_true, beq_iff_eq]

/-- `Ext` preserves table existence. -/
theorem ext_table_exists {a b : DB} (h : Ext a b) (n : String)
    (hex : table_exists a n = true) : table_exists b n = true := by
  rw [table_exists_iff] at hex ⊢
  rcases hex with h1 | ⟨t, ht, hn⟩
  · exact Or.inl h1
  · rcases h.tables_mono t ht with ⟨t', ht', hname, _, _, _⟩
    exact Or.inr ⟨t', ht', by rw [hname, hn]⟩

/-- `Ext` is reflexive. -/
theorem ext_refl (db : DB) : Ext db db :=
  ⟨fun t ht => ⟨t, ht, rfl, rfl, rfl, fun r hr => hr⟩, fun _ _ => rfl⟩

/-- `Ext` is transitive. -/
theorem ext_trans {a b c : DB} (h₁ : Ext a b) (h₂ : Ext b c) : Ext a c := by
  refine ⟨?_, ?_⟩
  · intro t ht
    rcases h₁.tables_mono t ht with ⟨t', ht', hn, hpk, hcols, hrows⟩
    rcases h₂.tables_mono t' ht' with ⟨t'', ht'', hn', hpk', hcols', hrows'⟩
    exact ⟨t'', ht'', by rw [hn', hn], by rw [hpk', hpk], by rw [hcols', hcols],
      fun r hr => hrows' r (hrows r hr)⟩
  · intro n hex
    rw [h₂.recorded_stable n (ext_table_exists h₁ n hex), h₁.recorded_stable n hex]

/-- Two states with the same schema record the same fingerprints. -/
theorem qss_schema_eq (db db' : DB) (hs : db'.schema = db.schema) (n : String) :
    query_single_value_schema db' n = query_single_value_schema db n := by
  simp [query_single_value_schema, hs]

/-- Appending registry rows preserves an existing recorded fingerprint. -/
theorem qss_append_some (db db' : DB) (rows : List SchemaRow)
    (hs : db'.schema = db.schema ++ rows) (n : String) (v : String)
    (h : query_single_value_schema db n = some v) :
    query_single_value_schema db' n = some v := by
  unfold query_single_value_schema at h ⊢
  by_cases hn : n = ""
  · rw [if_pos hn] at h ⊢
    rw [hs]
    cases hsch : db.schema with
    | nil => rw [hsch] at h; simp at h
    | cons r rs =>
      rw [hsch] at h
      exact h
  · rw [if_neg hn] at h ⊢
    rw [hs, List.find?_append]
    rcases hf : db.schema.find? (fun r => r.table_name == n) with _ | r
    · rw [hf] at h; simp at h
    · rw [hf] at h
      rw [hf]
      exact h

/-- Appending a registry row for a different table name does not change a
name's recorded fingerprint. -/
theorem qss_append_ne (db db' : DB) (r : SchemaRow)
    (hs : db'.schema = db.schema ++ [r]) (n : String) (hn : n ≠ "")
    (hne : r.table_name ≠ n) :
    query_single_value_schema db' n = query_single_value_schema db n := by
  unfold query_single_value_schema
  rw [if_neg hn, if_neg hn, hs, List.find?_append]
  rcases hf : db.schema.find? (fun x => x.table_name == n) with _ | x
  · have hb : (r.table_name == n) = false := by simpa using hne
    simp [List.find?, hb]
  · rw [hf]
    rfl

/-- A freshly appended registry row for a previously unrecorded name
becomes that name's recorded fingerprint. -/
theorem qss_append_new (db db' : DB) (r : SchemaRow)
    (hs : db'.schema = db.schema ++ [r]) (hn : r.table_name ≠ "")
    (hnone : db.schema.find? (fun x => x.table_name == r.table_name) = none) :
    query_single_value_schema db' r.table_name = some r.hash_value := by
  unfold query_single_value_schema
  rw [if_neg hn, hs, List.find?_append, hnone]
  simp [List.find?]

end ChatGPTTool

namespace ChatGPTTool

/-- Unfolding of `table_exists = false`. -/
theorem table_exists_eq_false (db : DB) (n : String) :
    table_exists db n = false ↔ n ≠ SCHEMA_TABLE ∧ ∀ t ∈ db.tables, t.name ≠ n := by
  rw [← Bool.not_eq_true, table_exists_iff]
  push_neg
  rfl

/-- `updateTable` only touches the table list. -/
theorem updateTable_schema (db : DB) (n : String) (f : Table → Table) :
    (updateTable db n f).schema = db.schema := rfl

/-- `updateTable` leaves the cache alone. -/
theorem updateTable_cache (db : DB) (n : String) (f : Table → Table) :
    (updateTable db n f).schema_cache = db.schema_cache := rfl

/-- Appending a row to one table preserves the list of table names. -/
theorem updateTable_names (db : DB) (n : String) (row : List (String × String)) :
    ((updateTable db n (fun u => { u with rows := u.rows ++ [row] })).tables.map (·.name)) =
      db.tables.map (·.name) := by
  simp only [updateTable, List.map_map]
  apply List.map_congr_left
  intro t _
  by_cases ht : t.name = n <;> simp [ht]

/-- `rowPresent` is what the `INSERT OR IGNORE` duplicate check tests. -/
theorem rowPresent_iff_any (obj : List (String × JValue)) (t : Table) :
    rowPresent obj t ↔
      t.rows.any (fun r => rowPk t.pkColumns r == rowPk t.pkColumns (objRow obj)) = true := by
  simp [rowPresent, List.any_eq_true, beq_iff_eq]

/-- Case analysis of a successful `insert_data`: the target table was
found, and either the row's primary key was already present (no change)
or the row was appended. -/
theorem insert_data_cases (db : DB) (tname : String) (cols : List String)
    (vals : List String) (db' : DB) (h : insert_data db tname cols vals = .ok db') :
    ∃ t, db.tables.find? (fun u => u.name == tname) = some t ∧
      cols.any (fun c => !(t.columns.any (fun tc => ciEq tc c))) = false ∧
      ((t.rows.any (fun r => rowPk t.pkColumns r == rowPk t.pkColumns (cols.zip vals)) = true ∧
        db' = db) ∨
       (t.rows.any (fun r => rowPk t.pkColumns r == rowPk t.pkColumns (cols.zip vals)) = false ∧
        db' = updateTable db tname (fun u => { u with rows := u.rows ++ [cols.zip vals] }))) := by
  unfold insert_data at h
  rcases hf : db.tables.find? (fun t => t.name == tname) with _ | t
  · rw [hf] at h; exact absurd h (by simp)
  · rw [hf] at h
    dsimp only at h
    refine ⟨t, hf, ?_⟩
    by_cases h1 : cols.length ≠ vals.length
    · rw [if_pos h1] at h; exact absurd h (by simp)
    · rw [if_neg h1] at h
      by_cases h2 : cols.isEmpty = true
      · rw [if_pos h2] at h; exact absurd h (by simp)
      · rw [if_neg h2] at h
        by_cases h3 : hasCIDup cols = true
        · rw [if_pos h3] at h; exact absurd h (by simp)
        · rw [if_neg h3] at h
          by_cases h4 : cols.any (fun c => !(t.columns.any (fun tc => ciEq tc c))) = true
          · rw [if_pos h4] at h; exact absurd h (by simp)
          · rw [if_neg h4] at h
            refine ⟨by simpa using h4, ?_⟩
            by_cases h5 : cols.any (fun c => c == "") = true
            · rw [if_pos h5] at h; exact absurd h (by simp)
            · rw [if_neg h5] at h
              by_cases h6 : t.rows.any
                  (fun r => rowPk t.pkColumns r == rowPk t.pkColumns (cols.zip vals)) = true
              · rw [if_pos h6] at h
                injection h with h
                exact Or.inl ⟨h6, h.symm⟩
              · rw [if_neg h6] at h
                injection h with h
                exact Or.inr ⟨by simpa using h6, h.symm⟩

/-- Case analysis of a successful `create_table` on an absent table. -/
theorem create_table_cases (db : DB) (tname : String) (idf : Option String)
    (cols : List String) (db₂ : DB) (hex : table_exists db tname = false)
    (h : create_table db tname idf cols = .ok db₂) :
    (createdColumns idf cols).isEmpty = false ∧
    hasCIDup (createdColumns idf cols) = false ∧
    db₂ = { db with tables :=
      db.tables ++ [⟨tname, createdPk idf cols, createdColumns idf cols, []⟩] } := by
  unfold create_table at h
  rw [if_neg (by simp [hex])] at h
  dsimp only at h
  by_cases h1 : (createdColumns idf cols).isEmpty = true
  · rw [if_pos h1] at h; exact absurd h (by simp)
  · rw [if_neg h1] at h
    by_cases h2 : hasCIDup (createdColumns idf cols) = true
    · rw [if_pos h2] at h; exact absurd h (by simp)
    · rw [if_neg h2] at h
      injection h with h
      exact ⟨by simpa using h1, by simpa using h2, h.symm⟩

end ChatGPTTool

namespace ChatGPTTool

/-- `any` over a mapped list. -/
theorem list_any_map {α β : Type} (f : α → β) (p : β → Bool) :
    ∀ l : List α, (l.map f).any p = l.any (fun a => p (f a)) := by
  intro l
  induction l with
  | nil => rfl
  | cons x xs ih => simp [List.any_cons, ih]

/-- `table_exists` depends only on the list of table names. -/
theorem table_exists_by_names (db : DB) (m : String) :
    table_exists db m =
      ((m == SCHEMA_TABLE) || (db.tables.map (·.name)).any (fun x => x == m)) := by
  unfold table_exists
  rw [list_any_map]

/-- Appending a row to one table does not change which tables exist. -/
theorem updateTable_rowapp_exists (db : DB) (n : String)
    (row : List (String × String)) (m : String) :
    table_exists (updateTable db n (fun u => { u with rows := u.rows ++ [row] })) m =
      table_exists db m := by
  rw [table_exists_by_names, table_exists_by_names, updateTable_names]

/-- Monotonicity of `table_exists` under appending tables. -/
theorem table_exists_append (db db' : DB) (ts : List Table)
    (h : db'.tables = db.tables ++ ts) (n : String)
    (hex : table_exists db n = true) : table_exists db' n = true := by
  rw [table_exists_iff] at hex ⊢
  rcases hex with h1 | ⟨t, ht, hn⟩
  · exact Or.inl h1
  · exact Or.inr ⟨t, by rw [h]; exact List.mem_append_left _ ht, hn⟩

/-- A successful import extends the store: every existing table keeps its
name, key, columns and rows, recorded fingerprints of existing tables
are unchanged, the invariant is maintained, and the cache stays
consistent. -/
theorem import_ext (fuel : Nat) (db : DB) (tn : String)
    (obj : List (String × JValue)) (db' : DB)
    (hinv : dbInv db) (hcc : cacheConsistent db) (htn : tn ≠ "")
    (h : import_single_json_object fuel db tn obj = some db') :
    Ext db db' ∧ dbInv db' ∧ cacheConsistent db' := by
  obtain ⟨k, c', hloop, hk1, hbr⟩ := import_cases fuel db tn obj db' h
  generalize hH : calculate_column_names_hash (obj.map (·.1)) = H at hloop hbr
  obtain ⟨k', _, hkeq, hstop, _⟩ :=
    resolveLoop_spec db tn H db.schema_cache fuel 1 _ _ hloop
  rw [← hkeq] at hstop
  have hccFrom : ∀ db'' : DB, db''.schema_cache = c' →
      (∀ n v, query_single_value_schema db n = some v →
        query_single_value_schema db'' n = some v) →
      cacheConsistent db'' := by
    intro db'' hcache hq n v hlook
    rw [hcache] at hlook
    rcases hstop with ⟨_, hc⟩ | ⟨_, _, hc⟩ | ⟨_, _, hqk, hc⟩
    · subst hc; exact hq n v (hcc n v hlook)
    · subst hc; exact hq n v (hcc n v hlook)
    · subst hc
      unfold cacheLookup cacheInsert at hlook
      rw [List.find?] at hlook
      by_cases hn : (probeName tn k == n) = true
      · rw [hn] at hlook
        simp only [Option.map_some', Option.some.injEq] at hlook
        rw [← hlook, ← (beq_iff_eq.1 hn)]
        exact hq _ _ hqk
      · rw [Bool.not_eq_true] at hn
        rw [hn] at hlook
        exact hq n v (hcc n v hlook)
  have hrollback : Ext db { db with schema_cache := c' } ∧
      dbInv { db with schema_cache := c' } ∧
      cacheConsistent { db with schema_cache := c' } :=
    ⟨⟨fun t ht => ⟨t, ht, rfl, rfl, rfl, fun r hr => hr⟩, fun n _ => rfl⟩,
      hinv, hccFrom _ rfl (fun n v hv => hv)⟩
  rcases hbr with ⟨hex, hins⟩ | ⟨_, _, hdb⟩ | ⟨hex, hcreate⟩
  · -- insert into an existing table succeeded (or was ignored)
    unfold insert_data_single at hins
    obtain ⟨t, hft, _, hcases⟩ := insert_data_cases _ _ _ _ _ hins
    rcases hcases with ⟨_, hdb⟩ | ⟨_, hdb⟩
    · subst hdb; exact hrollback
    · subst hdb
      refine ⟨⟨?_, fun n _ => rfl⟩, ?_, hccFrom _ rfl (fun n v hv => hv)⟩
      · intro u hu
        refine ⟨if u.name == probeName tn k then
            { u with rows := u.rows ++ [(obj.map (·.1)).zip (convert_values obj)] }
          else u, List.mem_map_of_mem _ hu, ?_, ?_, ?_, ?_⟩ <;>
          by_cases hb : (u.name == probeName tn k) = true <;> simp [hb]
        intro r hr
        exact Or.inl hr
      · obtain ⟨hreg, hnodup, hnames⟩ := hinv
        refine ⟨?_, ?_, ?_⟩
        · intro r hr
          rw [updateTable_rowapp_exists]
          exact hreg r hr
        · rw [updateTable_names]
          exact hnodup
        · intro u hu
          simp only [updateTable, List.mem_map] at hu
          obtain ⟨u₀, hu₀, hequ⟩ := hu
          have hnn := hnames u₀ hu₀
          subst hequ
          by_cases hb : (u₀.name == probeName tn k) = true
          · rw [if_pos hb]; exact hnn
          · rw [if_neg hb]; exact hnn
  · -- rollback after a failed insert
    subst hdb; exact hrollback
  · -- create path
    rcases hcreate with ⟨db₂, hcr, hins⟩ | ⟨_, hdb⟩
    · have hexfalse : table_exists { db with schema_cache := c' } (probeName tn k) = false := hex
      obtain ⟨hne, hnd, hdb₂⟩ := create_table_cases _ _ _ _ _ hexfalse hcr
      rcases hins with hins | ⟨_, hdb⟩
      · -- insert into the fresh table
        unfold insert_data_single at hins
        obtain ⟨t, hft, _, hcases⟩ := insert_data_cases _ _ _ _ _ hins
        have hnotold : ∀ u ∈ db.tables, u.name ≠ probeName tn k :=
          ((table_exists_eq_false db (probeName tn k)).1 hex).2
        have hrec_tables : (record_schema_change db₂ H (probeName tn k)
            (obj.map (·.1))).tables = db₂.tables := rfl
        have hfindnone : db.tables.find? (fun u => u.name == probeName tn k) = none := by
          rw [List.find?_eq_none]
          intro u hu
          simpa using hnotold u hu
        have hfind : ((record_schema_change db₂ H (probeName tn k)
              (obj.map (·.1))).tables.find?
            (fun u => u.name == probeName tn k)) =
            some ⟨probeName tn k,
              createdPk (get_id_and_column_names obj).1 (obj.map (·.1)),
              createdColumns (get_id_and_column_names obj).1 (obj.map (·.1)), []⟩ := by
          rw [hrec_tables, hdb₂]
          show (db.tables ++ [_]).find? _ = _
          rw [List.find?_append, hfindnone]
          simp [List.find?]
        rw [hfind] at hft
        injection hft with hft
        subst hft
        rcases hcases with ⟨hany, _⟩ | ⟨_, hdb⟩
        · simp at hany
        · subst hdb
          have hmapid : db.tables.map (fun u =>
              if u.name == probeName tn k then
                { u with rows := u.rows ++ [(obj.map (·.1)).zip (convert_values obj)] }
              else u) = db.tables := by
            have hcongr : ∀ u ∈ db.tables, (if u.name == probeName tn k then
                { u with rows := u.rows ++ [(obj.map (·.1)).zip (convert_values obj)] }
                else u) = u := by
              intro u hu
              rw [if_neg (by simpa using hnotold u hu)]
            rw [List.map_congr_left hcongr, List.map_id']
          have htables : (updateTable (record_schema_change db₂ H (probeName tn k)
                (obj.map (·.1))) (probeName tn k)
              (fun u => { u with rows := u.rows ++ [(obj.map (·.1)).zip (convert_values obj)] })).tables =
              db.tables ++ [⟨probeName tn k,
                createdPk (get_id_and_column_names obj).1 (obj.map (·.1)),
                createdColumns (get_id_and_column_names obj).1 (obj.map (·.1)),
                [(obj.map (·.1)).zip (convert_values obj)]⟩] := by
            show ((record_schema_change db₂ H (probeName tn k) (obj.map (·.1))).tables.map _) = _
            rw [hrec_tables, hdb₂]
            show ((db.tables ++ [_]).map _) = _
            rw [List.map_append, hmapid]
            congr 1
            simp
          have hschema : (updateTable (record_schema_change db₂ H (probeName tn k)
                (obj.map (·.1))) (probeName tn k)
              (fun u => { u with rows := u.rows ++ [(obj.map (·.1)).zip (convert_values obj)] })).schema =
              db.schema ++ [⟨H, probeName tn k, String.intercalate "," (obj.map (·.1))⟩] := by
            show (record_schema_change db₂ H (probeName tn k) (obj.map (·.1))).schema = _
            show db₂.schema ++ [_] = _
            rw [hdb₂]
          have hcache : (updateTable (record_schema_change db₂ H (probeName tn k)
                (obj.map (·.1))) (probeName tn k)
              (fun u => { u with rows := u.rows ++ [(obj.map (·.1)).zip (convert_values obj)] })).schema_cache = c' := by
            show db₂.schema_cache = c'
            rw [hdb₂]
          have hknotschema : probeName tn k ≠ SCHEMA_TABLE :=
            ((table_exists_eq_false db (probeName tn k)).1 hex).1
          have hexoldname : ∀ n, table_exists db n = true → n ≠ "" ∧ probeName tn k ≠ n := by
            intro n hn
            rw [table_exists_iff] at hn
            rcases hn with h1 | ⟨u, hu, hun⟩
            · subst h1
              exact ⟨by decide, hknotschema⟩
            · subst hun
              exact ⟨(hinv.2.2 u hu).2, fun hk => hnotold u hu hk.symm⟩
          refine ⟨⟨?_, ?_⟩, ⟨?_, ?_, ?_⟩, ?_⟩
          · intro u hu
            refine ⟨u, ?_, rfl, rfl, rfl, fun r hr => hr⟩
            rw [htables]
            exact List.mem_append_left _ hu
          · intro n hn
            exact qss_append_ne _ _ _ hschema n (hexoldname n hn).1 (hexoldname n hn).2
          · intro r hr
            rw [hschema] at hr
            rcases List.mem_append.1 hr with hold | hnew
            · apply table_exists_append db _ _ htables
              exact hinv.1 r hold
            · rw [List.mem_singleton] at hnew
              subst hnew
              rw [table_exists_iff]
              refine Or.inr ⟨_, by rw [htables]; exact List.mem_append_right _ (List.mem_singleton.2 rfl), rfl⟩
          · rw [table_exists_by_names] at hex
            rw [htables, List.map_append]
            simp only [List.map_cons, List.map_nil]
            rw [List.nodup_append]
            refine ⟨hinv.2.1, List.nodup_singleton _, ?_⟩
            intro a ha hb
            rw [List.mem_singleton] at hb
            subst hb
            simp only [Bool.or_eq_false_iff, List.any_eq_false] at hex
            have hfalse := hex.2 _ ha
            simp at hfalse
          · intro u hu
            rw [htables] at hu
            rcases List.mem_append.1 hu with hold | hnew
            · exact hinv.2.2 u hold
            · rw [List.mem_singleton] at hnew
              subst hnew
              exact ⟨hknotschema, probeName_ne_empty tn k htn⟩
          · refine hccFrom _ hcache ?_
            intro n v hv
            exact qss_append_some _ _ _ hschema n v hv
      · subst hdb; exact hrollback
    · subst hdb; exact hrollback

end ChatGPTTool

namespace ChatGPTTool

/-- With distinct table names, a member is determined by its name. -/
theorem mem_name_unique (l : List Table) (hnd : (l.map (·.name)).Nodup)
    {a b : Table} (ha : a ∈ l) (hb : b ∈ l) (hab : a.name = b.name) : a = b := by
  induction l with
  | nil => cases ha
  | cons x xs ih =>
    rw [List.map_cons, List.nodup_cons] at hnd
    rcases List.mem_cons.1 ha with rfl | ha' <;> rcases List.mem_cons.1 hb with rfl | hb'
    · rfl
    · exact absurd (by rw [hab]; exact List.mem_map_of_mem _ hb') hnd.1
    · exact absurd (by rw [← hab]; exact List.mem_map_of_mem _ ha') hnd.1
    · exact ih hnd.2 ha' hb'

/-- `ImportFacts` is preserved by any store extension into a well-formed
state. -/
theorem facts_transport (tn : String) (obj : List (String × JValue)) {s s' : DB}
    (hf : ImportFacts tn obj s) (hext : Ext s s') (hinv' : dbInv s') :
    ImportFacts tn obj s' := by
  rcases hf with hbad | ⟨k, hk1, hex, hrec, hfind, hpre⟩
  · exact Or.inl hbad
  · refine Or.inr ⟨k, hk1, ext_table_exists hext _ hex, ?_, ?_, ?_⟩
    · rw [hext.recorded_stable _ hex]
      exact hrec
    · intro t' hft'
      have ht'mem := List.mem_of_find?_eq_some hft'
      have ht'name : t'.name = probeName tn k := by simpa using List.find?_some hft'
      rcases hfs : s.tables.find? (fun u => u.name == probeName tn k) with _ | t
      · exfalso
        rw [table_exists_iff] at hex
        rcases hex with hsch | ⟨u, hu, hun⟩
        · exact (hinv'.2.2 t' ht'mem).1 (by rw [ht'name, hsch])
        · rw [List.find?_eq_none] at hfs
          exact absurd (by simpa using hun) (by simpa using hfs u hu)
      · have ht := List.mem_of_find?_eq_some hfs
        have htname : t.name = probeName tn k := by simpa using List.find?_some hfs
        rcases hext.tables_mono t ht with ⟨t'', ht'', hn'', hpk'', hcols'', hrows''⟩
        have hteq : t' = t'' :=
          mem_name_unique s'.tables hinv'.2.1 ht'mem ht''
            (by rw [ht'name, hn'', htname])
        subst hteq
        rcases hfind t hfs with hrp | herr
        · left
          obtain ⟨r, hr, hpkeq⟩ := hrp
          exact ⟨r, hrows'' r hr, by rw [hpk'', hpkeq]⟩
        · right
          unfold insertErr at herr ⊢
          rw [hcols'']
          exact herr
    · intro j hj1 hjk
      obtain ⟨hexj, hrecj⟩ := hpre j hj1 hjk
      refine ⟨ext_table_exists hext _ hexj, ?_⟩
      rw [hext.recorded_stable _ hexj]
      exact hrecj

/-- With distinct table names, `find?` locates a member table by name. -/
theorem find_name_unique (l : List Table) (hnd : (l.map (·.name)).Nodup)
    (t : Table) (ht : t ∈ l) (n : String) (hn : t.name = n) :
    l.find? (fun u => u.name == n) = some t := by
  induction l with
  | nil => cases ht
  | cons x xs ih =>
    rw [List.find?]
    rcases List.mem_cons.1 ht with rfl | hmem
    · rw [show (t.name == n) = true by simpa using hn]
    · by_cases hx : (x.name == n) = true
      · exfalso
        rw [List.map_cons, List.nodup_cons] at hnd
        apply hnd.1
        rw [beq_iff_eq.1 hx, ← hn]
        exact List.mem_map_of_mem _ hmem
      · rw [Bool.not_eq_true] at hx
        rw [hx]
        rw [List.map_cons, List.nodup_cons] at hnd
        exact ih hnd.2 hmem

/-- An intrinsically bad object can never be inserted successfully. -/
theorem insert_objBad_error (db : DB) (tname : String)
    (obj : List (String × JValue)) (db0 : DB) (hbad : objBad obj = true)
    (h : insert_data_single db tname obj = .ok db0) : False := by
  unfold insert_data_single insert_data at h
  rcases hf : db.tables.find? (fun t => t.name == tname) with _ | t
  · rw [hf] at h; simp at h
  · rw [hf] at h
    dsimp only at h
    have hlen : ((obj.map (·.1)).length ≠ (convert_values obj).length) = False := by
      simp [convert_values]
    rw [if_neg (by simp [convert_values])] at h
    by_cases h2 : (obj.map (·.1)).isEmpty = true
    · rw [if_pos h2] at h; simp at h
    · rw [if_neg h2] at h
      by_cases h3 : hasCIDup (obj.map (·.1)) = true
      · rw [if_pos h3] at h; simp at h
      · rw [if_neg h3] at h
        by_cases h5 : (obj.map (·.1)).any (fun c => c == "") = true
        · by_cases h4 : (obj.map (·.1)).any
              (fun c => !(t.columns.any (fun tc => ciEq tc c))) = true
          · rw [if_pos h4] at h; simp at h
          · rw [if_neg h4, if_pos h5] at h; simp at h
        · unfold objBad at hbad
          simp only [Bool.or_eq_true, Bool.and_eq_true] at hbad
          rcases hbad with (⟨hemp, _⟩ | hdup) | hanyemp
          · rw [show (obj.map (·.1)).isEmpty = true by simpa using hemp] at h2
            exact h2 rfl
          · exact h3 hdup
          · exact h5 hanyemp

end ChatGPTTool

namespace ChatGPTTool

/-- Re-importing an object whose `ImportFacts` already hold is a no-op on
tables and registry: the probe resolves to the same table and the insert
is ignored (or fails identically), so only the cache may change. -/
theorem import_noop (fuel : Nat) (s : DB) (tn : String)
    (obj : List (String × JValue)) (s' : DB)
    (hinv : dbInv s) (hcc : cacheConsistent s) (hf : ImportFacts tn obj s)
    (h : import_single_json_object fuel s tn obj = some s') :
    s'.tables = s.tables ∧ s'.schema = s.schema := by
  obtain ⟨k, c', hloop, hk1, hbr⟩ := import_cases fuel s tn obj s' h
  rcases hf with hbad | ⟨k₀, hk₀, hex₀, hrec, hfind, hpre₀⟩
  · rcases hbr with ⟨_, hins⟩ | ⟨_, _, hdb⟩ | ⟨_, hcreate⟩
    · exact (insert_objBad_error _ _ _ _ hbad hins).elim
    · subst hdb; exact ⟨rfl, rfl⟩
    · rcases hcreate with ⟨db₂, _, hins2⟩ | ⟨_, hdb⟩
      · rcases hins2 with hinsok | ⟨_, hdb⟩
        · exact (insert_objBad_error _ _ _ _ hbad hinsok).elim
        · subst hdb; exact ⟨rfl, rfl⟩
      · subst hdb; exact ⟨rfl, rfl⟩
  · generalize hH : calculate_column_names_hash (obj.map (·.1)) = H at hloop hbr hrec hpre₀
    obtain ⟨k', hk'1, hkeq, hstop, hpre⟩ :=
      resolveLoop_spec s tn H s.schema_cache fuel 1 _ _ hloop
    have hkk : k' = k₀ := by
      rcases Nat.lt_trichotomy k' k₀ with hlt | heq | hgt
      · exfalso
        obtain ⟨hexk', hreck'⟩ := hpre₀ k' hk'1 hlt
        rcases hstop with ⟨hexf, _⟩ | ⟨_, hcachehit, _⟩ | ⟨_, _, hrechit, _⟩
        · rw [hexk'] at hexf; exact Bool.noConfusion hexf
        · exact hreck' (hcc _ _ hcachehit)
        · exact hreck' hrechit
      · exact heq
      · exfalso
        obtain ⟨_, _, hrecj⟩ := hpre k₀ hk₀ hgt
        exact hrecj hrec
    have hpk : probeName tn k = probeName tn k₀ := by rw [hkeq, hkk]
    rcases hbr with ⟨_, hins⟩ | ⟨_, _, hdb⟩ | ⟨hexf, _⟩
    · unfold insert_data_single at hins
      obtain ⟨t₁, hft, hchk, hcases⟩ := insert_data_cases _ _ _ _ _ hins
      rcases hcases with ⟨_, hdb⟩ | ⟨hanyf, hdb⟩
      · subst hdb; exact ⟨rfl, rfl⟩
      · exfalso
        have hft0 : s.tables.find? (fun u => u.name == probeName tn k₀) = some t₁ := by
          rw [← hpk]
          exact hft
        rcases hfind t₁ hft0 with hrp | herr
        · rw [rowPresent_iff_any] at hrp
          rw [show objRow obj = (obj.map (·.1)).zip (convert_values obj) from rfl] at hrp
          rw [hrp] at hanyf
          exact Bool.noConfusion hanyf
        · unfold insertErr at herr
          rw [herr] at hchk
          exact Bool.noConfusion hchk
    · subst hdb; exact ⟨rfl, rfl⟩
    · rw [← hpk] at hex₀
      rw [hexf] at hex₀
      exact Bool.noConfusion hex₀

end ChatGPTTool

namespace ChatGPTTool

/-- `ciEq` is reflexive. -/
theorem ciEq_refl (c : String) : ciEq c c = true := by simp [ciEq]

/-- A duplicate surviving a filter was a duplicate in the full list. -/
theorem hasCIDup_filter (p : String → Bool) :
    ∀ l : List String, hasCIDup (l.filter p) = true → hasCIDup l = true := by
  intro l
  induction l with
  | nil => intro h; simpa [hasCIDup] using h
  | cons x xs ih =>
    intro h
    rw [List.filter_cons] at h
    by_cases hp : p x = true
    · rw [if_pos hp] at h
      unfold hasCIDup at h ⊢
      rw [Bool.or_eq_true] at h ⊢
      rcases h with h | h
      · left
        rw [List.any_eq_true] at h ⊢
        obtain ⟨d, hd, hcd⟩ := h
        exact ⟨d, List.mem_of_mem_filter hd, hcd⟩
      · right; exact ih h
    · rw [if_neg hp] at h
      unfold hasCIDup
      rw [Bool.or_eq_true]
      right; exact ih h

/-- For a well-formed object, a failed insert into a found table can only
be due to a key naming no column of the table. -/
theorem insert_error_reason (db : DB) (tname : String)
    (obj : List (String × JValue)) (t : Table) (hbadF : objBad obj = false)
    (hfind : db.tables.find? (fun u => u.name == tname) = some t)
    (herr : insert_data_single db tname obj = .error ()) :
    insertErr obj t = true := by
  unfold objBad at hbadF
  simp only [Bool.or_eq_false_iff] at hbadF
  obtain ⟨⟨hab, hdup⟩, hempk⟩ := hbadF
  have hemp : (obj.map (·.1)).isEmpty = false := by
    cases obj with
    | nil => simp at hab
    | cons a l => rfl
  unfold insert_data_single insert_data at herr
  rw [hfind] at herr
  dsimp only at herr
  rw [if_neg (by simp [convert_values])] at herr
  rw [if_neg (by rw [hemp]; exact Bool.noConfusion)] at herr
  rw [if_neg (by rw [hdup]; exact Bool.noConfusion)] at herr
  by_cases hcol : (obj.map (·.1)).any
      (fun c => !(t.columns.any (fun tc => ciEq tc c))) = true
  · exact hcol
  · rw [if_neg hcol] at herr
    rw [if_neg (by rw [hempk]; exact Bool.noConfusion)] at herr
    by_cases hany : t.rows.any (fun r => rowPk t.pkColumns r ==
        rowPk t.pkColumns ((obj.map (·.1)).zip (convert_values obj))) = true
    · rw [if_pos hany] at herr; exact absurd herr (by simp)
    · rw [if_neg hany] at herr; exact absurd herr (by simp)

/-- A well-formed object's keys all name columns of the table created for
it. -/
theorem insertErr_created_false (obj : List (String × JValue))
    (t : Table)
    (hcols : t.columns = createdColumns (get_id_and_column_names obj).1 (obj.map (·.1))) :
    insertErr obj t = false := by
  unfold insertErr
  rw [List.any_eq_false]
  intro c hc
  have hgoal : ((createdColumns (get_id_and_column_names obj).1 (obj.map (·.1))).any
      (fun tc => ciEq tc c)) = true := by
    rcases hid : (get_id_and_column_names obj).1 with _ | idf
    · show ((obj.map (·.1)).any (fun tc => ciEq tc c)) = true
      rw [List.any_eq_true]
      exact ⟨c, hc, ciEq_refl c⟩
    · show ((idf :: (obj.map (·.1)).filter (fun x => !(ciEq idf x))).any
        (fun tc => ciEq tc c)) = true
      rw [List.any_eq_true]
      by_cases hci : ciEq idf c = true
      · exact ⟨idf, List.mem_cons_self _ _, hci⟩
      · refine ⟨c, List.mem_cons_of_mem _ ?_, ciEq_refl c⟩
        rw [List.mem_filter]
        exact ⟨hc, by simpa using hci⟩
  rw [hcols, hgoal]
  simp

/-- For a well-formed object, `create_table` never fails. -/
theorem create_ok_of_good (db : DB) (tname : String)
    (obj : List (String × JValue)) (hbadF : objBad obj = false) (e : Unit)
    (h : create_table db tname (get_id_and_column_names obj).1 (obj.map (·.1)) =
      .error e) : False := by
  unfold objBad at hbadF
  simp only [Bool.or_eq_false_iff] at hbadF
  obtain ⟨⟨hab, hdup⟩, _⟩ := hbadF
  unfold create_table at h
  by_cases hex : table_exists db tname = true
  · rw [if_pos hex] at h; exact absurd h (by simp)
  · rw [if_neg hex] at h
    dsimp only at h
    have hne : (createdColumns (get_id_and_column_names obj).1
        (obj.map (·.1))).isEmpty = false := by
      rcases hid : (get_id_and_column_names obj).1 with _ | idf
      · unfold createdColumns
        cases obj with
        | nil =>
          exfalso
          simp [get_id_and_column_names] at hid
          simp at hab
        | cons a l => rfl
      · rfl
    rw [if_neg (by rw [hne]; exact Bool.noConfusion)] at h
    have hnd : hasCIDup (createdColumns (get_id_and_column_names obj).1
        (obj.map (·.1))) = false := by
      rcases hid : (get_id_and_column_names obj).1 with _ | idf
      · unfold createdColumns; exact hdup
      · unfold createdColumns
        unfold hasCIDup
        rw [Bool.or_eq_false_iff]
        constructor
        · rw [List.any_eq_false]
          intro d hd
          rw [List.mem_filter] at hd
          simpa using hd.2
        · rw [← Bool.not_eq_true]
          intro hdup2
          rw [hasCIDup_filter _ _ hdup2] at hdup
          exact Bool.noConfusion hdup
    rw [if_neg (by rw [hnd]; exact Bool.noConfusion)] at h
    exact absurd h (by simp)

/-- `find?` by name commutes with a name-preserving row update. -/
theorem find_map_rowapp (n m : String) (row : List (String × String)) :
    ∀ l : List Table,
    (l.map (fun u => if u.name == m then { u with rows := u.rows ++ [row] } else u)).find?
      (fun u => u.name == n) =
    (l.find? (fun u => u.name == n)).map
      (fun u => if u.name == m then { u with rows := u.rows ++ [row] } else u) := by
  intro l
  induction l with
  | nil => rfl
  | cons x xs ih =>
    rw [List.map_cons, List.find?, List.find?]
    have hname : (if x.name == m then { x with rows := x.rows ++ [row] } else x).name = x.name := by
      by_cases hb : (x.name == m) = true
      · rw [if_pos hb]
      · rw [if_neg hb]
    rw [hname]
    by_cases hb : (x.name == n) = true
    · rw [hb]
      rfl
    · rw [Bool.not_eq_true] at hb
      rw [hb]
      exact ih

end ChatGPTTool

namespace ChatGPTTool

/-- After a successful import of a well-formed or bad object, the
re-import invariant `ImportFacts` holds of the resulting state. -/
theorem import_facts (fuel : Nat) (db : DB) (tn : String)
    (obj : List (String × JValue)) (db' : DB)
    (hinv : dbInv db) (hcc : cacheConsistent db) (htn : tn ≠ "")
    (h : import_single_json_object fuel db tn obj = some db') :
    ImportFacts tn obj db' := by
  by_cases hbadq : objBad obj = true
  · exact Or.inl hbadq
  · rw [Bool.not_eq_true] at hbadq
    obtain ⟨hx, hinv', hcc'⟩ := import_ext fuel db tn obj db' hinv hcc htn h
    obtain ⟨k, c', hloop, hk1, hbr⟩ := import_cases fuel db tn obj db' h
    unfold ImportFacts
    generalize hH : calculate_column_names_hash (obj.map (·.1)) = H at hloop hbr ⊢
    obtain ⟨k', hk'1, hkeq, hstop, hpre⟩ :=
      resolveLoop_spec db tn H db.schema_cache fuel 1 _ _ hloop
    rw [← hkeq] at hstop
    have hprefix : ∀ j, 1 ≤ j → j < k' → table_exists db' (probeName tn j) = true ∧
        query_single_value_schema db' (probeName tn j) ≠ some H := by
      intro j hj1 hjk
      obtain ⟨hexj, _, hrecj⟩ := hpre j hj1 hjk
      refine ⟨ext_table_exists hx _ hexj, ?_⟩
      rw [hx.recorded_stable _ hexj]
      exact hrecj
    have hmain : table_exists db' (probeName tn k) = true ∧
        query_single_value_schema db' (probeName tn k) = some H ∧
        (∀ t, db'.tables.find? (fun u => u.name == probeName tn k) = some t →
          rowPresent obj t ∨ insertErr obj t = true) := by
      rcases hbr with ⟨hex, hins⟩ | ⟨hex, hins, hdb⟩ | ⟨hex, hcreate⟩
      · have hrecdb : query_single_value_schema db (probeName tn k) = some H := by
          rcases hstop with ⟨hexf, _⟩ | ⟨_, hch, _⟩ | ⟨_, _, hq, _⟩
          · rw [hex] at hexf; exact Bool.noConfusion hexf
          · exact hcc _ _ hch
          · exact hq
        unfold insert_data_single at hins
        obtain ⟨t₁, hft, hchk, hcases⟩ := insert_data_cases _ _ _ _ _ hins
        have hft0 : db.tables.find? (fun u => u.name == probeName tn k) = some t₁ := hft
        rcases hcases with ⟨hany, hdb⟩ | ⟨hany, hdb⟩
        · subst hdb
          refine ⟨hex, hrecdb, ?_⟩
          intro t' hft'
          have hteq : t₁ = t' := by
            have h2 := hft0.symm.trans hft'
            injection h2
          subst hteq
          left
          rw [rowPresent_iff_any]
          rw [show objRow obj = (obj.map (·.1)).zip (convert_values obj) from rfl]
          exact hany
        · subst hdb
          refine ⟨?_, ?_, ?_⟩
          · rw [updateTable_rowapp_exists]
            exact hex
          · exact (qss_schema_eq db _ rfl (probeName tn k)).trans hrecdb
          · intro t' hft'
            rw [show (updateTable { db with schema_cache := c' } (probeName tn k)
                (fun u => { u with rows :=
                  u.rows ++ [(obj.map (·.1)).zip (convert_values obj)] })).tables =
              db.tables.map (fun u => if u.name == probeName tn k then
                { u with rows := u.rows ++ [(obj.map (·.1)).zip (convert_values obj)] }
                else u) from rfl, find_map_rowapp] at hft'
            rw [hft0] at hft'
            simp only [Option.map_some', Option.some.injEq] at hft'
            have hb : (t₁.name == probeName tn k) = true :=
              beq_iff_eq.2 (by simpa using List.find?_some hft0)
            rw [if_pos hb] at hft'
            subst hft'
            left
            refine ⟨(obj.map (·.1)).zip (convert_values obj), ?_, ?_⟩
            · exact List.mem_append_right _ (List.mem_singleton.2 rfl)
            · rfl
      · subst hdb
        have hrecdb : query_single_value_schema db (probeName tn k) = some H := by
          rcases hstop with ⟨hexf, _⟩ | ⟨_, hch, _⟩ | ⟨_, _, hq, _⟩
          · rw [hex] at hexf; exact Bool.noConfusion hexf
          · exact hcc _ _ hch
          · exact hq
        refine ⟨hex, hrecdb, ?_⟩
        intro t' hft'
        right
        exact insert_error_reason { db with schema_cache := c' } (probeName tn k)
          obj t' hbadq hft' hins
      · rcases hcreate with ⟨db₂, hcr, hins⟩ | ⟨hcrerr, _⟩
        · have hexfalse : table_exists { db with schema_cache := c' }
              (probeName tn k) = false := hex
          obtain ⟨hne, hnd, hdb₂⟩ := create_table_cases _ _ _ _ _ hexfalse hcr
          have hnotold : ∀ u ∈ db.tables, u.name ≠ probeName tn k :=
            ((table_exists_eq_false db (probeName tn k)).1 hex).2
          have hfindnone : db.tables.find? (fun u => u.name == probeName tn k) = none := by
            rw [List.find?_eq_none]
            intro u hu
            simpa using hnotold u hu
          have hfind : ((record_schema_change db₂ H (probeName tn k)
                (obj.map (·.1))).tables.find?
              (fun u => u.name == probeName tn k)) =
              some ⟨probeName tn k,
                createdPk (get_id_and_column_names obj).1 (obj.map (·.1)),
                createdColumns (get_id_and_column_names obj).1 (obj.map (·.1)), []⟩ := by
            rw [show (record_schema_change db₂ H (probeName tn k)
                (obj.map (·.1))).tables = db₂.tables from rfl, hdb₂]
            show (db.tables ++ [_]).find? _ = _
            rw [List.find?_append, hfindnone]
            simp [List.find?]
          rcases hins with hins | ⟨herr, _⟩
          · unfold insert_data_single at hins
            obtain ⟨t, hft, hchk, hcases⟩ := insert_data_cases _ _ _ _ _ hins
            rw [hfind] at hft
            injection hft with hft
            subst hft
            rcases hcases with ⟨hany, _⟩ | ⟨hanyf, hdb⟩
            · simp at hany
            · subst hdb
              have hmapid : db.tables.map (fun u =>
                  if u.name == probeName tn k then
                    { u with rows := u.rows ++ [(obj.map (·.1)).zip (convert_values obj)] }
                  else u) = db.tables := by
                have hcongr : ∀ u ∈ db.tables, (if u.name == probeName tn k then
                    { u with rows := u.rows ++ [(obj.map (·.1)).zip (convert_values obj)] }
                    else u) = u := by
                  intro u hu
                  rw [if_neg (by simpa using hnotold u hu)]
                rw [List.map_congr_left hcongr, List.map_id']
              have htables : (updateTable (record_schema_change db₂ H (probeName tn k)
                    (obj.map (·.1))) (probeName tn k)
                  (fun u => { u with rows := u.rows ++ [(obj.map (·.1)).zip (convert_values obj)] })).tables =
                  db.tables ++ [⟨probeName tn k,
                    createdPk (get_id_and_column_names obj).1 (obj.map (·.1)),
                    createdColumns (get_id_and_column_names obj).1 (obj.map (·.1)),
                    [(obj.map (·.1)).zip (convert_values obj)]⟩] := by
                show ((record_schema_change db₂ H (probeName tn k) (obj.map (·.1))).tables.map _) = _
                rw [show (record_schema_change db₂ H (probeName tn k)
                    (obj.map (·.1))).tables = db₂.tables from rfl, hdb₂]
                show ((db.tables ++ [_]).map _) = _
                rw [List.map_append, hmapid]
                congr 1
                simp
              have hschema : (updateTable (record_schema_change db₂ H (probeName tn k)
                    (obj.map (·.1))) (probeName tn k)
                  (fun u => { u with rows := u.rows ++ [(obj.map (·.1)).zip (convert_values obj)] })).schema =
                  db.schema ++ [⟨H, probeName tn k, String.intercalate "," (obj.map (·.1))⟩] := by
                show (record_schema_change db₂ H (probeName tn k) (obj.map (·.1))).schema = _
                show db₂.schema ++ [_] = _
                rw [hdb₂]
              have hnone : db.schema.find? (fun x => x.table_name == probeName tn k) = none := by
                rw [List.find?_eq_none]
                intro r hr hb
                have hrex := hinv.1 r hr
                rw [beq_iff_eq.1 hb, hex] at hrex
                exact Bool.noConfusion hrex
              refine ⟨?_, ?_, ?_⟩
              · rw [table_exists_iff]
                refine Or.inr ⟨⟨probeName tn k,
                    createdPk (get_id_and_column_names obj).1 (obj.map (·.1)),
                    createdColumns (get_id_and_column_names obj).1 (obj.map (·.1)),
                    [(obj.map (·.1)).zip (convert_values obj)]⟩, ?_, rfl⟩
                rw [htables]
                exact List.mem_append_right _ (List.mem_singleton.2 rfl)
              · exact qss_append_new db _ _ hschema (probeName_ne_empty tn k htn) hnone
              · intro t' hft'
                have ht'mem := List.mem_of_find?_eq_some hft'
                have ht'name : t'.name = probeName tn k := by
                  simpa using List.find?_some hft'
                rw [htables] at ht'mem
                rcases List.mem_append.1 ht'mem with hold | hnew
                · exact absurd ht'name (hnotold t' hold)
                · rw [List.mem_singleton] at hnew
                  subst hnew
                  left
                  refine ⟨(obj.map (·.1)).zip (convert_values obj), ?_, ?_⟩
                  · exact List.mem_singleton.2 rfl
                  · rfl
          · exfalso
            have h1 := insert_error_reason (record_schema_change db₂ H (probeName tn k)
                (obj.map (·.1))) (probeName tn k) obj
              ⟨probeName tn k,
                createdPk (get_id_and_column_names obj).1 (obj.map (·.1)),
                createdColumns (get_id_and_column_names obj).1 (obj.map (·.1)), []⟩
              hbadq hfind herr
            have h2 := insertErr_created_false obj
              ⟨probeName tn k,
                createdPk (get_id_and_column_names obj).1 (obj.map (·.1)),
                createdColumns (get_id_and_column_names obj).1 (obj.map (·.1)), []⟩ rfl
            rw [h1] at h2
            exact Bool.noConfusion h2
        · exact (create_ok_of_good { db with schema_cache := c' } (probeName tn k)
            obj hbadq () hcrerr).elim
    exact Or.inr ⟨k', hk'1, by rw [← hkeq]; exact hmain.1,
      by rw [← hkeq]; exact hmain.2.1,
      by rw [← hkeq]; exact hmain.2.2, hprefix⟩

end ChatGPTTool

namespace ChatGPTTool

/-- A successful batch import extends the store, maintains the
invariant, and establishes `ImportFacts` for every object of the
batch. -/
theorem importList_ext (fuel : Nat) (tn : String) (htn : tn ≠ "") :
    ∀ (objs : List (List (String × JValue))) (db s₁ : DB),
    dbInv db → cacheConsistent db →
    import_json_data_to_sqlite fuel db tn objs = some s₁ →
    Ext db s₁ ∧ dbInv s₁ ∧ cacheConsistent s₁ ∧
      ∀ obj ∈ objs, ImportFacts tn obj s₁ := by
  intro objs
  induction objs with
  | nil =>
    intro db s₁ hinv hcc h
    injection h with h
    subst h
    exact ⟨ext_refl db, hinv, hcc, fun obj hobj => absurd hobj (List.not_mem_nil obj)⟩
  | cons obj rest ih =>
    intro db s₁ hinv hcc h
    unfold import_json_data_to_sqlite at h
    rcases h1 : import_single_json_object fuel db tn obj with _ | db'
    · rw [h1] at h; exact absurd h (by simp)
    · rw [h1] at h
      dsimp only at h
      obtain ⟨hx1, hinv1, hcc1⟩ := import_ext fuel db tn obj db' hinv hcc htn h1
      have hfacts1 := import_facts fuel db tn obj db' hinv hcc htn h1
      obtain ⟨hx2, hinv2, hcc2, hfacts2⟩ := ih db' s₁ hinv1 hcc1 h
      refine ⟨ext_trans hx1 hx2, hinv2, hcc2, ?_⟩
      intro o ho
      rcases List.mem_cons.1 ho with rfl | ho'
      · exact facts_transport tn o hfacts1 hx2 hinv2
      · exact hfacts2 o ho'

/-- Re-importing a batch whose `ImportFacts` already hold leaves the
tables and the registry unchanged. -/
theorem importList_noop (fuel : Nat) (tn : String) (htn : tn ≠ "") :
    ∀ (objs : List (List (String × JValue))) (s₁ s₂ : DB),
    dbInv s₁ → cacheConsistent s₁ → (∀ obj ∈ objs, ImportFacts tn obj s₁) →
    import_json_data_to_sqlite fuel s₁ tn objs = some s₂ →
    s₂.tables = s₁.tables ∧ s₂.schema = s₁.schema := by
  intro objs
  induction objs with
  | nil =>
    intro s₁ s₂ _ _ _ h
    injection h with h
    subst h
    exact ⟨rfl, rfl⟩
  | cons obj rest ih =>
    intro s₁ s₂ hinv hcc hfacts h
    unfold import_json_data_to_sqlite at h
    rcases h1 : import_single_json_object fuel s₁ tn obj with _ | s'
    · rw [h1] at h; exact absurd h (by simp)
    · rw [h1] at h
      dsimp only at h
      obtain ⟨hx1, hinv1, hcc1⟩ := import_ext fuel s₁ tn obj s' hinv hcc htn h1
      obtain ⟨ht1, hs1⟩ := import_noop fuel s₁ tn obj s' hinv hcc
        (hfacts obj (List.mem_cons_self obj rest)) h1
      have hfacts' : ∀ o ∈ rest, ImportFacts tn o s' := by
        intro o ho
        exact facts_transport tn o (hfacts o (List.mem_cons_of_mem _ ho)) hx1 hinv1
      obtain ⟨ht2, hs2⟩ := ih s' s₂ hinv1 hcc1 hfacts' h
      exact ⟨ht2.trans ht1, hs2.trans hs1⟩

end ChatGPTTool

namespace ChatGPTTool

/-- C6: importing the same batch of objects a second time into the store
produced by the first import leaves every table — its rows included, so
in particular every row count — and the schema registry unchanged: each
object's row is already present under its primary key (so the
`INSERT OR IGNORE` is a silent no-op and the first-written values are
retained), or the object fails identically in both runs. -/
theorem c6_reimport_noop (fuel : Nat) (db : DB) (tn : String)
    (objs : List (List (String × JValue))) (s₁ s₂ : DB)
    (hinv : dbInv db) (hcc : cacheConsistent db) (htn : tn ≠ "")
    (h₁ : import_json_data_to_sqlite fuel db tn objs = some s₁)
    (h₂ : import_json_data_to_sqlite fuel s₁ tn objs = some s₂) :
    s₂.tables = s₁.tables ∧ s₂.schema = s₁.schema := by
  obtain ⟨_, hinv1, hcc1, hfacts⟩ := importList_ext fuel tn htn objs db s₁ hinv hcc h₁
  exact importList_noop fuel tn htn objs s₁ s₂ hinv1 hcc1 hfacts h₂

/-- C6 witness: a concrete double import of `{"id": "u1", "email": "e"}`
into an empty store under the name `user`. -/
theorem c6_reimport_noop_witness :
    dbInv ⟨[], [], []⟩ ∧ cacheConsistent ⟨[], [], []⟩ ∧ ("user" : String) ≠ "" ∧
    import_json_data_to_sqlite 3 ⟨[], [], []⟩ "user"
        [[("id", JValue.str "u1"), ("email", JValue.str "e")]] =
      some ⟨[⟨"user", ["id"], ["id", "email"], [[("id", "u1"), ("email", "e")]]⟩],
        [⟨"d1b960d7e00f14f7b139ed056aee72ad", "user", "id,email"⟩], []⟩ ∧
    import_json_data_to_sqlite 3
        ⟨[⟨"user", ["id"], ["id", "email"], [[("id", "u1"), ("email", "e")]]⟩],
          [⟨"d1b960d7e00f14f7b139ed056aee72ad", "user", "id,email"⟩], []⟩ "user"
        [[("id", JValue.str "u1"), ("email", JValue.str "e")]] =
      some ⟨[⟨"user", ["id"], ["id", "email"], [[("id", "u1"), ("email", "e")]]⟩],
        [⟨"d1b960d7e00f14f7b139ed056aee72ad", "user", "id,email"⟩],
        [("user", "d1b960d7e00f14f7b139ed056aee72ad")]⟩ ∧
    (DB.mk [⟨"user", ["id"], ["id", "email"], [[("id", "u1"), ("email", "e")]]⟩]
        [⟨"d1b960d7e00f14f7b139ed056aee72ad", "user", "id,email"⟩]
        [("user", "d1b960d7e00f14f7b139ed056aee72ad")]).tables =
      (DB.mk [⟨"user", ["id"], ["id", "email"], [[("id", "u1"), ("email", "e")]]⟩]
        [⟨"d1b960d7e00f14f7b139ed056aee72ad", "user", "id,email"⟩] []).tables ∧
    (DB.mk [⟨"user", ["id"], ["id", "email"], [[("id", "u1"), ("email", "e")]]⟩]
        [⟨"d1b960d7e00f14f7b139ed056aee72ad", "user", "id,email"⟩]
        [("user", "d1b960d7e00f14f7b139ed056aee72ad")]).schema =
      (DB.mk [⟨"user", ["id"], ["id", "email"], [[("id", "u1"), ("email", "e")]]⟩]
        [⟨"d1b960d7e00f14f7b139ed056aee72ad", "user", "id,email"⟩] []).schema := by
  have hinv : dbInv ⟨[], [], []⟩ :=
    ⟨fun r hr => absurd hr (List.not_mem_nil r), List.nodup_nil,
      fun t ht => absurd ht (List.not_mem_nil t)⟩
  have hcc : cacheConsistent ⟨[], [], []⟩ := by
    intro n v h
    simp [cacheLookup] at h
  have htn : ("user" : String) ≠ "" := by decide
  have h₁ : import_json_data_to_sqlite 3 ⟨[], [], []⟩ "user"
        [[("id", JValue.str "u1"), ("email", JValue.str "e")]] =
      some ⟨[⟨"user", ["id"], ["id", "email"], [[("id", "u1"), ("email", "e")]]⟩],
        [⟨"d1b960d7e00f14f7b139ed056aee72ad", "user", "id,email"⟩], []⟩ := by decide
  have h₂ : import_json_data_to_sqlite 3
        ⟨[⟨"user", ["id"], ["id", "email"], [[("id", "u1"), ("email", "e")]]⟩],
          [⟨"d1b960d7e00f14f7b139ed056aee72ad", "user", "id,email"⟩], []⟩ "user"
        [[("id", JValue.str "u1"), ("email", JValue.str "e")]] =
      some ⟨[⟨"user", ["id"], ["id", "email"], [[("id", "u1"), ("email", "e")]]⟩],
        [⟨"d1b960d7e00f14f7b139ed056aee72ad", "user", "id,email"⟩],
        [("user", "d1b960d7e00f14f7b139ed056aee72ad")]⟩ := by decide
  exact ⟨hinv, hcc, htn, h₁, h₂,
    c6_reimport_noop 3 ⟨[], [], []⟩ "user"
      [[("id", JValue.str "u1"), ("email", JValue.str "e")]] _ _ hinv hcc htn h₁ h₂⟩

end ChatGPTTool

namespace ChatGPTTool

/-- C5 counterexample: the store holds a table `tbl` with the single
column `ab`; a batch whose column set is `{a, b}` — a different set —
fingerprints identically (both hash md5 of `"ab"`), so resolution reuses
`tbl`, the insert fails on the unknown columns, the transaction rolls
back, and no versioned table is created. -/
theorem c5_counterexample :
    ((["a", "b"] : List String).contains "ab" = false) ∧
    calculate_column_names_hash ["a", "b"] = calculate_column_names_hash ["ab"] ∧
    import_single_json_object 2
        ⟨[⟨"tbl", ["ab"], ["ab"], []⟩],
          [⟨"187ef4436122d1cc2f40dc2b92f0eba0", "tbl", "ab"⟩], []⟩
        "tbl" [("a", JValue.str "x"), ("b", JValue.str "y")] =
      some ⟨[⟨"tbl", ["ab"], ["ab"], []⟩],
        [⟨"187ef4436122d1cc2f40dc2b92f0eba0", "tbl", "ab"⟩],
        [("tbl", "187ef4436122d1cc2f40dc2b92f0eba0")]⟩ :=
  ⟨by decide, by decide, by decide⟩

/-- C5 (amended): when the batch's fingerprint really differs from the
logical name's recorded one and the first versioned probe `tn_v2` is
free, a successful import appends exactly one new versioned table
holding the batch's row, and appends its registry binding — every
pre-existing table, its rows and its column set included, is left
literally unchanged. -/
theorem c5_versioning (fuel : Nat) (db : DB) (tn : String)
    (obj : List (String × JValue)) (s' : DB)
    (hinv : dbInv db) (hcc : cacheConsistent db) (htn : tn ≠ "")
    (hbadF : objBad obj = false)
    (hex1 : table_exists db tn = true)
    (hrec1 : query_single_value_schema db tn ≠
      some (calculate_column_names_hash (obj.map (·.1))))
    (hex2 : table_exists db (probeName tn 2) = false)
    (h : import_single_json_object fuel db tn obj = some s') :
    s'.tables = db.tables ++ [⟨probeName tn 2,
        createdPk (get_id_and_column_names obj).1 (obj.map (·.1)),
        createdColumns (get_id_and_column_names obj).1 (obj.map (·.1)),
        [objRow obj]⟩] ∧
    s'.schema = db.schema ++
      [⟨calculate_column_names_hash (obj.map (·.1)), probeName tn 2,
        String.intercalate "," (obj.map (·.1))⟩] := by
  obtain ⟨k, c', hloop, hk1, hbr⟩ := import_cases fuel db tn obj s' h
  generalize hH : calculate_column_names_hash (obj.map (·.1)) = H at hloop hbr hrec1 ⊢
  obtain ⟨k', hk'1, hkeq, hstop, hpre⟩ :=
    resolveLoop_spec db tn H db.schema_cache fuel 1 _ _ hloop
  rw [← hkeq] at hstop
  have hk'2 : k' = 2 := by
    rcases Nat.lt_trichotomy k' 2 with hlt | heq | hgt
    · exfalso
      have hk1' : k' = 1 := Nat.le_antisymm (Nat.lt_succ_iff.1 hlt) hk'1
      have hpk1 : probeName tn k = tn := by
        rw [hkeq, hk1']
        rfl
      rw [hpk1] at hstop
      rcases hstop with ⟨hexf, _⟩ | ⟨_, hch, _⟩ | ⟨_, _, hq, _⟩
      · rw [hexf] at hex1; exact Bool.noConfusion hex1
      · exact hrec1 (hcc _ _ hch)
      · exact hrec1 hq
    · exact heq
    · exfalso
      obtain ⟨hex2', _, _⟩ := hpre 2 (by decide) hgt
      rw [hex2'] at hex2
      exact Bool.noConfusion hex2
  have hpk : probeName tn k = probeName tn 2 := by rw [hkeq, hk'2]
  rcases hbr with ⟨hex, _⟩ | ⟨hex, _, _⟩ | ⟨hexf, hcreate⟩
  · exfalso
    rw [hpk] at hex
    rw [hex] at hex2
    exact Bool.noConfusion hex2
  · exfalso
    rw [hpk] at hex
    rw [hex] at hex2
    exact Bool.noConfusion hex2
  · rcases hcreate with ⟨db₂, hcr, hins⟩ | ⟨hcrerr, _⟩
    · have hexfalse : table_exists { db with schema_cache := c' }
          (probeName tn k) = false := hexf
      obtain ⟨hne, hnd, hdb₂⟩ := create_table_cases _ _ _ _ _ hexfalse hcr
      have hnotold : ∀ u ∈ db.tables, u.name ≠ probeName tn k :=
        ((table_exists_eq_false db (probeName tn k)).1 hexf).2
      have hfindnone : db.tables.find? (fun u => u.name == probeName tn k) = none := by
        rw [List.find?_eq_none]
        intro u hu
        simpa using hnotold u hu
      have hfind : ((record_schema_change db₂ H (probeName tn k)
            (obj.map (·.1))).tables.find?
          (fun u => u.name == probeName tn k)) =
          some ⟨probeName tn k,
            createdPk (get_id_and_column_names obj).1 (obj.map (·.1)),
            createdColumns (get_id_and_column_names obj).1 (obj.map (·.1)), []⟩ := by
        rw [show (record_schema_change db₂ H (probeName tn k)
            (obj.map (·.1))).tables = db₂.tables from rfl, hdb₂]
        show (db.tables ++ [_]).find? _ = _
        rw [List.find?_append, hfindnone]
        simp [List.find?]
      rcases hins with hins | ⟨herr, _⟩
      · unfold insert_data_single at hins
        obtain ⟨t, hft, hchk, hcases⟩ := insert_data_cases _ _ _ _ _ hins
        rw [hfind] at hft
        injection hft with hft
        subst hft
        rcases hcases with ⟨hany, _⟩ | ⟨hanyf, hdb⟩
        · simp at hany
        · subst hdb
          have hmapid : db.tables.map (fun u =>
              if u.name == probeName tn k then
                { u with rows := u.rows ++ [(obj.map (·.1)).zip (convert_values obj)] }
              else u) = db.tables := by
            have hcongr : ∀ u ∈ db.tables, (if u.name == probeName tn k then
                { u with rows := u.rows ++ [(obj.map (·.1)).zip (convert_values obj)] }
                else u) = u := by
              intro u hu
              rw [if_neg (by simpa using hnotold u hu)]
            rw [List.map_congr_left hcongr, List.map_id']
          have htables : (updateTable (record_schema_change db₂ H (probeName tn k)
                (obj.map (·.1))) (probeName tn k)
              (fun u => { u with rows := u.rows ++ [(obj.map (·.1)).zip (convert_values obj)] })).tables =
              db.tables ++ [⟨probeName tn k,
                createdPk (get_id_and_column_names obj).1 (obj.map (·.1)),
                createdColumns (get_id_and_column_names obj).1 (obj.map (·.1)),
                [(obj.map (·.1)).zip (convert_values obj)]⟩] := by
            show ((record_schema_change db₂ H (probeName tn k) (obj.map (·.1))).tables.map _) = _
            rw [show (record_schema_change db₂ H (probeName tn k)
                (obj.map (·.1))).tables = db₂.tables from rfl, hdb₂]
            show ((db.tables ++ [_]).map _) = _
            rw [List.map_append, hmapid]
            congr 1
            simp
          have hschema : (updateTable (record_schema_change db₂ H (probeName tn k)
                (obj.map (·.1))) (probeName tn k)
              (fun u => { u with rows := u.rows ++ [(obj.map (·.1)).zip (convert_values obj)] })).schema =
              db.schema ++ [⟨H, probeName tn k, String.intercalate "," (obj.map (·.1))⟩] := by
            show (record_schema_change db₂ H (probeName tn k) (obj.map (·.1))).schema = _
            show db₂.schema ++ [_] = _
            rw [hdb₂]
          rw [← hpk]
          exact ⟨htables, hschema⟩
      · exfalso
        have h1 := insert_error_reason (record_schema_change db₂ H (probeName tn k)
            (obj.map (·.1))) (probeName tn k) obj
          ⟨probeName tn k,
            createdPk (get_id_and_column_names obj).1 (obj.map (·.1)),
            createdColumns (get_id_and_column_names obj).1 (obj.map (·.1)), []⟩
          hbadF hfind herr
        have h2 := insertErr_created_false obj
          ⟨probeName tn k,
            createdPk (get_id_and_column_names obj).1 (obj.map (·.1)),
            createdColumns (get_id_and_column_names obj).1 (obj.map (·.1)), []⟩ rfl
        rw [h1] at h2
        exact Bool.noConfusion h2
    · exact (create_ok_of_good { db with schema_cache := c' } (probeName tn k)
        obj hbadF () hcrerr).elim

end ChatGPTTool

namespace ChatGPTTool

/-- C5 witness: importing `{"id": "u2", "phone": "p"}` under `user` into
the example store (whose `user` table is bound to the fingerprint of
`{id, email}`) creates `user_v2` and leaves `user` untouched. -/
theorem c5_versioning_witness :
    dbInv exampleDB ∧ cacheConsistent exampleDB ∧ ("user" : String) ≠ "" ∧
    objBad [("id", JValue.str "u2"), ("phone", JValue.str "p")] = false ∧
    table_exists exampleDB "user" = true ∧
    query_single_value_schema exampleDB "user" ≠
      some (calculate_column_names_hash
        ([("id", JValue.str "u2"), ("phone", JValue.str "p")].map (·.1))) ∧
    table_exists exampleDB (probeName "user" 2) = false ∧
    import_single_json_object 3 exampleDB "user"
        [("id", JValue.str "u2"), ("phone", JValue.str "p")] =
      some ⟨[⟨"user", ["id"], ["id", "email"], [[("id", "u1"), ("email", "e")]]⟩,
          ⟨"user_v2", ["id"], ["id", "phone"], [[("id", "u2"), ("phone", "p")]]⟩],
        [⟨"d1b960d7e00f14f7b139ed056aee72ad", "user", "id,email"⟩,
          ⟨"433f44f102f085c28fd2644997344d77", "user_v2", "id,phone"⟩], []⟩ ∧
    ((DB.mk [⟨"user", ["id"], ["id", "email"], [[("id", "u1"), ("email", "e")]]⟩,
          ⟨"user_v2", ["id"], ["id", "phone"], [[("id", "u2"), ("phone", "p")]]⟩]
        [⟨"d1b960d7e00f14f7b139ed056aee72ad", "user", "id,email"⟩,
          ⟨"433f44f102f085c28fd2644997344d77", "user_v2", "id,phone"⟩] []).tables =
      exampleDB.tables ++ [⟨probeName "user" 2,
        createdPk (get_id_and_column_names
            [("id", JValue.str "u2"), ("phone", JValue.str "p")]).1
          ([("id", JValue.str "u2"), ("phone", JValue.str "p")].map (·.1)),
        createdColumns (get_id_and_column_names
            [("id", JValue.str "u2"), ("phone", JValue.str "p")]).1
          ([("id", JValue.str "u2"), ("phone", JValue.str "p")].map (·.1)),
        [objRow [("id", JValue.str "u2"), ("phone", JValue.str "p")]]⟩] ∧
    (DB.mk [⟨"user", ["id"], ["id", "email"], [[("id", "u1"), ("email", "e")]]⟩,
          ⟨"user_v2", ["id"], ["id", "phone"], [[("id", "u2"), ("phone", "p")]]⟩]
        [⟨"d1b960d7e00f14f7b139ed056aee72ad", "user", "id,email"⟩,
          ⟨"433f44f102f085c28fd2644997344d77", "user_v2", "id,phone"⟩] []).schema =
      exampleDB.schema ++
        [⟨calculate_column_names_hash
            ([("id", JValue.str "u2"), ("phone", JValue.str "p")].map (·.1)),
          probeName "user" 2,
          String.intercalate ","
            ([("id", JValue.str "u2"), ("phone", JValue.str "p")].map (·.1))⟩]) := by
  have hinv : dbInv exampleDB := by
    unfold dbInv
    exact ⟨by decide, by decide, by decide⟩
  have hcc : cacheConsistent exampleDB := by
    intro n v h
    rw [show exampleDB.schema_cache = [] from rfl] at h
    simp [cacheLookup] at h
  have htn : ("user" : String) ≠ "" := by decide
  have hbadF : objBad [("id", JValue.str "u2"), ("phone", JValue.str "p")] = false := by
    decide
  have hex1 : table_exists exampleDB "user" = true := by decide
  have hrec1 : query_single_value_schema exampleDB "user" ≠
      some (calculate_column_names_hash
        ([("id", JValue.str "u2"), ("phone", JValue.str "p")].map (·.1))) := by decide
  have hex2 : table_exists exampleDB (probeName "user" 2) = false := by decide
  have h : import_single_json_object 3 exampleDB "user"
        [("id", JValue.str "u2"), ("phone", JValue.str "p")] =
      some ⟨[⟨"user", ["id"], ["id", "email"], [[("id", "u1"), ("email", "e")]]⟩,
          ⟨"user_v2", ["id"], ["id", "phone"], [[("id", "u2"), ("phone", "p")]]⟩],
        [⟨"d1b960d7e00f14f7b139ed056aee72ad", "user", "id,email"⟩,
          ⟨"433f44f102f085c28fd2644997344d77", "user_v2", "id,phone"⟩], []⟩ := by decide
  exact ⟨hinv, hcc, htn, hbadF, hex1, hrec1, hex2, h,
    c5_versioning 3 exampleDB "user"
      [("id", JValue.str "u2"), ("phone", JValue.str "p")] _
      hinv hcc htn hbadF hex1 hrec1 hex2 h⟩

end ChatGPTTool

namespace ChatGPTTool

/-- C1 counterexample: a record with no field matching `id`
case-insensitively is not rejected: importing `{"name": "alice"}` into
an empty store creates a `people` table with the compound primary key
over all columns and writes the row. -/
theorem c1_counterexample :
    (([("name", JValue.str "alice")].map (·.1)).any
      (fun c => strLower c == "id")) = false ∧
    import_single_json_object 2 ⟨[], [], []⟩ "people"
        [("name", JValue.str "alice")] =
      some ⟨[⟨"people", ["name"], ["name"], [[("name", "alice")]]⟩],
        [⟨"b068931cc450442b63f5b3d276ea4297", "people", "name"⟩], []⟩ :=
  ⟨by decide, by decide⟩

/-- C1 (amended): a record with no case-insensitive `id` field is still
written: under a fresh table name the import creates a table whose
primary key is the compound key spanning every column (no identity
column is auto-assigned — the column list is exactly the record's key
list) and appends the record's row. -/
theorem c1_no_id_written (fuel : Nat) (db : DB) (tn : String)
    (obj : List (String × JValue)) (s' : DB)
    (hinv : dbInv db) (hcc : cacheConsistent db) (htn : tn ≠ "")
    (hbadF : objBad obj = false)
    (hnoid : ((obj.map (·.1)).any (fun c => strLower c == "id")) = false)
    (hexf : table_exists db tn = false)
    (h : import_single_json_object fuel db tn obj = some s') :
    s'.tables = db.tables ++
      [⟨tn, obj.map (·.1), obj.map (·.1), [objRow obj]⟩] ∧
    s'.schema = db.schema ++
      [⟨calculate_column_names_hash (obj.map (·.1)), tn,
        String.intercalate "," (obj.map (·.1))⟩] := by
  have hidnone : (get_id_and_column_names obj).1 = none := by
    unfold get_id_and_column_names
    rw [show (((obj.find? (fun p => strLower p.1 == "id")).map (·.1),
        obj.map (·.1)).1) = (obj.find? (fun p => strLower p.1 == "id")).map (·.1)
      from rfl]
    rw [List.find?_eq_none.2, Option.map_none']
    intro p hp
    rw [List.any_eq_false] at hnoid
    simpa using hnoid p.1 (List.mem_map_of_mem _ hp)
  obtain ⟨k, c', hloop, hk1, hbr⟩ := import_cases fuel db tn obj s' h
  generalize hH : calculate_column_names_hash (obj.map (·.1)) = H at hloop hbr ⊢
  obtain ⟨k', hk'1, hkeq, hstop, hpre⟩ :=
    resolveLoop_spec db tn H db.schema_cache fuel 1 _ _ hloop
  have hk'one : k' = 1 := by
    rcases Nat.lt_trichotomy k' 1 with hlt | heq | hgt
    · exact absurd hk'1 (Nat.not_le_of_lt hlt)
    · exact heq
    · exfalso
      obtain ⟨hex1', _, _⟩ := hpre 1 (Nat.le_refl 1) hgt
      rw [show probeName tn 1 = tn from rfl] at hex1'
      rw [hex1'] at hexf
      exact Bool.noConfusion hexf
  have hpk : probeName tn k = tn := by
    rw [hkeq, hk'one]
    rfl
  rcases hbr with ⟨hex, _⟩ | ⟨hex, _, _⟩ | ⟨hexf2, hcreate⟩
  · exfalso
    rw [hpk] at hex
    rw [hex] at hexf
    exact Bool.noConfusion hexf
  · exfalso
    rw [hpk] at hex
    rw [hex] at hexf
    exact Bool.noConfusion hexf
  · rcases hcreate with ⟨db₂, hcr, hins⟩ | ⟨hcrerr, _⟩
    · have hexfalse : table_exists { db with schema_cache := c' }
          (probeName tn k) = false := hexf2
      obtain ⟨hne, hnd, hdb₂⟩ := create_table_cases _ _ _ _ _ hexfalse hcr
      have hnotold : ∀ u ∈ db.tables, u.name ≠ probeName tn k :=
        ((table_exists_eq_false db (probeName tn k)).1 hexf2).2
      have hfindnone : db.tables.find? (fun u => u.name == probeName tn k) = none := by
        rw [List.find?_eq_none]
        intro u hu
        simpa using hnotold u hu
      have hfind : ((record_schema_change db₂ H (probeName tn k)
            (obj.map (·.1))).tables.find?
          (fun u => u.name == probeName tn k)) =
          some ⟨probeName tn k,
            createdPk (get_id_and_column_names obj).1 (obj.map (·.1)),
            createdColumns (get_id_and_column_names obj).1 (obj.map (·.1)), []⟩ := by
        rw [show (record_schema_change db₂ H (probeName tn k)
            (obj.map (·.1))).tables = db₂.tables from rfl, hdb₂]
        show (db.tables ++ [_]).find? _ = _
        rw [List.find?_append, hfindnone]
        simp [List.find?]
      rcases hins with hins | ⟨herr, _⟩
      · unfold insert_data_single at hins
        obtain ⟨t, hft, hchk, hcases⟩ := insert_data_cases _ _ _ _ _ hins
        rw [hfind] at hft
        injection hft with hft
        subst hft
        rcases hcases with ⟨hany, _⟩ | ⟨hanyf, hdb⟩
        · simp at hany
        · subst hdb
          have hmapid : db.tables.map (fun u =>
              if u.name == probeName tn k then
                { u with rows := u.rows ++ [(obj.map (·.1)).zip (convert_values obj)] }
              else u) = db.tables := by
            have hcongr : ∀ u ∈ db.tables, (if u.name == probeName tn k then
                { u with rows := u.rows ++ [(obj.map (·.1)).zip (convert_values obj)] }
                else u) = u := by
              intro u hu
              rw [if_neg (by simpa using hnotold u hu)]
            rw [List.map_congr_left hcongr, List.map_id']
          have htables : (updateTable (record_schema_change db₂ H (probeName tn k)
                (obj.map (·.1))) (probeName tn k)
              (fun u => { u with rows := u.rows ++ [(obj.map (·.1)).zip (convert_values obj)] })).tables =
              db.tables ++ [⟨probeName tn k,
                createdPk (get_id_and_column_names obj).1 (obj.map (·.1)),
                createdColumns (get_id_and_column_names obj).1 (obj.map (·.1)),
                [(obj.map (·.1)).zip (convert_values obj)]⟩] := by
            show ((record_schema_change db₂ H (probeName tn k) (obj.map (·.1))).tables.map _) = _
            rw [show (record_schema_change db₂ H (probeName tn k)
                (obj.map (·.1))).tables = db₂.tables from rfl, hdb₂]
            show ((db.tables ++ [_]).map _) = _
            rw [List.map_append, hmapid]
            congr 1
            simp
          have hschema : (updateTable (record_schema_change db₂ H (probeName tn k)
                (obj.map (·.1))) (probeName tn k)
              (fun u => { u with rows := u.rows ++ [(obj.map (·.1)).zip (convert_values obj)] })).schema =
              db.schema ++ [⟨H, probeName tn k, String.intercalate "," (obj.map (·.1))⟩] := by
            show (record_schema_change db₂ H (probeName tn k) (obj.map (·.1))).schema = _
            show db₂.schema ++ [_] = _
            rw [hdb₂]
          constructor
          · rw [htables, hpk, hidnone]
            rfl
          · rw [hschema, hpk]
      · exfalso
        have h1 := insert_error_reason (record_schema_change db₂ H (probeName tn k)
            (obj.map (·.1))) (probeName tn k) obj
          ⟨probeName tn k,
            createdPk (get_id_and_column_names obj).1 (obj.map (·.1)),
            createdColumns (get_id_and_column_names obj).1 (obj.map (·.1)), []⟩
          hbadF hfind herr
        have h2 := insertErr_created_false obj
          ⟨probeName tn k,
            createdPk (get_id_and_column_names obj).1 (obj.map (·.1)),
            createdColumns (get_id_and_column_names obj).1 (obj.map (·.1)), []⟩ rfl
        rw [h1] at h2
        exact Bool.noConfusion h2
    · exact (create_ok_of_good { db with schema_cache := c' } (probeName tn k)
        obj hbadF () hcrerr).elim

end ChatGPTTool

namespace ChatGPTTool

/-- C1 witness: the concrete no-`id` record `{"name": "alice"}` imported
into an empty store under the fresh name `people`. -/
theorem c1_no_id_written_witness :
    dbInv ⟨[], [], []⟩ ∧ cacheConsistent ⟨[], [], []⟩ ∧
    ("people" : String) ≠ "" ∧
    objBad [("name", JValue.str "alice")] = false ∧
    (([("name", JValue.str "alice")].map (·.1)).any
      (fun c => strLower c == "id")) = false ∧
    table_exists ⟨[], [], []⟩ "people" = false ∧
    import_single_json_object 2 ⟨[], [], []⟩ "people"
        [("name", JValue.str "alice")] =
      some ⟨[⟨"people", ["name"], ["name"], [[("name", "alice")]]⟩],
        [⟨"b068931cc450442b63f5b3d276ea4297", "people", "name"⟩], []⟩ ∧
    ((DB.mk [⟨"people", ["name"], ["name"], [[("name", "alice")]]⟩]
        [⟨"b068931cc450442b63f5b3d276ea4297", "people", "name"⟩] []).tables =
      (DB.mk [] [] []).tables ++
        [⟨"people", [("name", JValue.str "alice")].map (·.1),
          [("name", JValue.str "alice")].map (·.1),
          [objRow [("name", JValue.str "alice")]]⟩] ∧
    (DB.mk [⟨"people", ["name"], ["name"], [[("name", "alice")]]⟩]
        [⟨"b068931cc450442b63f5b3d276ea4297", "people", "name"⟩] []).schema =
      (DB.mk [] [] []).schema ++
        [⟨calculate_column_names_hash ([("name", JValue.str "alice")].map (·.1)),
          "people",
          String.intercalate "," ([("name", JValue.str "alice")].map (·.1))⟩]) := by
  have hinv : dbInv ⟨[], [], []⟩ :=
    ⟨fun r hr => absurd hr (List.not_mem_nil r), List.nodup_nil,
      fun t ht => absurd ht (List.not_mem_nil t)⟩
  have hcc : cacheConsistent ⟨[], [], []⟩ := by
    intro n v h
    simp [cacheLookup] at h
  have htn : ("people" : String) ≠ "" := by decide
  have hbadF : objBad [("name", JValue.str "alice")] = false := by decide
  have hnoid : (([("name", JValue.str "alice")].map (·.1)).any
      (fun c => strLower c == "id")) = false := by decide
  have hexf : table_exists ⟨[], [], []⟩ "people" = false := by decide
  have h : import_single_json_object 2 ⟨[], [], []⟩ "people"
        [("name", JValue.str "alice")] =
      some ⟨[⟨"people", ["name"], ["name"], [[("name", "alice")]]⟩],
        [⟨"b068931cc450442b63f5b3d276ea4297", "people", "name"⟩], []⟩ := by decide
  exact ⟨hinv, hcc, htn, hbadF, hnoid, hexf, h,
    c1_no_id_written 2 ⟨[], [], []⟩ "people" [("name", JValue.str "alice")] _
      hinv hcc htn hbadF hnoid hexf h⟩

end ChatGPTTool

namespace ChatGPTTool

/-- On the two-node cyclic mapping `a -> b -> a`, the parent walk never
terminates: whatever the fuel, it is exhausted. -/
theorem walk_cycle_none (fuel : Nat) :
    ∀ acc,
      walkNodes fuel
        (JValue.obj [("a", JValue.obj [("parent", JValue.str "b")]),
          ("b", JValue.obj [("parent", JValue.str "a")])])
        (JValue.str "a") acc = none ∧
      walkNodes fuel
        (JValue.obj [("a", JValue.obj [("parent", JValue.str "b")]),
          ("b", JValue.obj [("parent", JValue.str "a")])])
        (JValue.str "b") acc = none := by
  induction fuel with
  | zero => intro acc; exact ⟨rfl, rfl⟩
  | succ n ih =>
    intro acc
    constructor
    · show walkNodes n
        (JValue.obj [("a", JValue.obj [("parent", JValue.str "b")]),
          ("b", JValue.obj [("parent", JValue.str "a")])])
        (JValue.str "b") acc = none
      exact (ih acc).2
    · show walkNodes n
        (JValue.obj [("a", JValue.obj [("parent", JValue.str "b")]),
          ("b", JValue.obj [("parent", JValue.str "a")])])
        (JValue.str "a") acc = none
      exact (ih acc).1

/-- C2 (code bug): reconstruction is not robust.  A dangling parent
reference makes `mapping.get` return `None` and the unconditional
`node.get("parent")` then raises `AttributeError` instead of returning
the collected prefix; a parent-pointer cycle makes the `while` loop run
forever (no fuel suffices), instead of terminating. -/
theorem c2_reconstruction_not_robust :
    get_conversation_messages 9
      [("id", JValue.str "c1"),
        ("mapping", JValue.str
          "\x7b'n1': \x7b'parent': 'ghost', 'message': \x7b'author': \x7b'role': 'user'\x7d, 'content': \x7b'content_type': 'text', 'parts': ['hi']\x7d\x7d\x7d\x7d"),
        ("current_node", JValue.str "n1")] =
      some (.error .attributeErr) ∧
    ∀ fuel, get_conversation_messages fuel
      [("id", JValue.str "c1"),
        ("mapping", JValue.str
          "\x7b'a': \x7b'parent': 'b'\x7d, 'b': \x7b'parent': 'a'\x7d\x7d"),
        ("current_node", JValue.str "a")] = none := by
  constructor
  · rfl
  · intro fuel
    show (match walkNodes fuel
        (JValue.obj [("a", JValue.obj [("parent", JValue.str "b")]),
          ("b", JValue.obj [("parent", JValue.str "a")])])
        (JValue.str "a") [] with
      | none => (none : Option (Except PyErr (List JValue)))
      | some (Except.error e) => some (Except.error e)
      | some (Except.ok msgs) => some (Except.ok msgs.reverse)) = none
    rw [(walk_cycle_none fuel []).1]

/-- C7 counterexample: on the spec's exact example input the
reconstructor returns the empty list, not the two messages — the
messages in the example lack the `author.role`/`content.parts`
structure the code requires. -/
theorem c7_counterexample :
    get_conversation_messages 9
      [("id", JValue.str "c1"),
        ("mapping", JValue.str
          "\x7b'root': \x7b'parent': None\x7d, 'n1': \x7b'parent': 'root', 'message': \x7b'author': 'user', 'text': 'hi'\x7d\x7d, 'n2': \x7b'parent': 'n1', 'message': \x7b'author': 'assistant', 'text': 'hello'\x7d\x7d\x7d"),
        ("current_node", JValue.str "n2")] = some (.ok []) := rfl

/-- C7 (amended): on the same three-node chain with the message
structure the code actually reads (`author` a dict with a `role`,
`content` a dict with `content_type: text` and a `parts` list), the
reconstructor returns exactly the two messages, oldest first. -/
theorem c7_reconstruction_example :
    get_conversation_messages 9
      [("id", JValue.str "c1"),
        ("mapping", JValue.str
          "\x7b'root': \x7b'parent': None\x7d, 'n1': \x7b'parent': 'root', 'message': \x7b'author': \x7b'role': 'user'\x7d, 'content': \x7b'content_type': 'text', 'parts': ['hi']\x7d\x7d\x7d, 'n2': \x7b'parent': 'n1', 'message': \x7b'author': \x7b'role': 'assistant'\x7d, 'content': \x7b'content_type': 'text', 'parts': ['hello']\x7d\x7d\x7d\x7d"),
        ("current_node", JValue.str "n2")] =
      some (.ok
        [JValue.obj [("id", JValue.str "n1"), ("author", JValue.str "user"),
          ("timestamp", JValue.num 0), ("text", JValue.str "hi")],
         JValue.obj [("id", JValue.str "n2"), ("author", JValue.str "assistant"),
          ("timestamp", JValue.num 0), ("text", JValue.str "hello")]]) := rfl

/-- C8 (code bug): a missing or falsy `mapping` does yield the empty
list, but an unparsable `mapping` raises an uncaught `SyntaxError`: the
`except json.JSONDecodeError` clause can never match what
`ast.literal_eval` raises. -/
theorem c8_unparsable_mapping_raises :
    get_conversation_messages 9 [("id", JValue.str "c1")] = some (.ok []) ∧
    get_conversation_messages 9
      [("id", JValue.str "c1"), ("mapping", JValue.str "")] = some (.ok []) ∧
    get_conversation_messages 9
      [("id", JValue.str "c1"), ("mapping", JValue.str "\x7bbad"),
        ("current_node", JValue.str "n1")] = some (.error .syntaxErr) :=
  ⟨rfl, rfl, rfl⟩

end ChatGPTTool

namespace ChatGPTTool

/-- The `unique_ids` accumulation yields pairwise-distinct ids, none of
them previously seen. -/
theorem dedupAppend_nodup :
    ∀ (l : List (String × (String × Int × String))) (seen : List String),
      ((dedupAppend l seen).map (·.id)).Nodup ∧
      ∀ c ∈ dedupAppend l seen, seen.contains c.id = false := by
  intro l
  induction l with
  | nil =>
    intro seen
    exact ⟨List.nodup_nil, fun c hc => absurd hc (List.not_mem_nil c)⟩
  | cons x rest ih =>
    intro seen
    obtain ⟨tb, i, ct, ti⟩ := x
    simp only [dedupAppend]
    by_cases hs : seen.contains i = true
    · rw [if_pos hs]
      exact ih seen
    · rw [Bool.not_eq_true] at hs
      rw [if_neg (by rw [hs]; exact Bool.noConfusion)]
      obtain ⟨hnd, hmem⟩ := ih (i :: seen)
      refine ⟨?_, ?_⟩
      · rw [List.map_cons, List.nodup_cons]
        refine ⟨?_, hnd⟩
        intro hmemmap
        rw [List.mem_map] at hmemmap
        obtain ⟨c, hc, hcid⟩ := hmemmap
        have hcs := hmem c hc
        rw [show (⟨tb, i, ct, ti⟩ : Conversation).id = i from rfl] at hcid
        rw [hcid] at hcs
        simp at hcs
      · intro c hc
        rcases List.mem_cons.1 hc with rfl | hc'
        · exact hs
        · have hcs := hmem c hc'
          simp only [List.contains_cons, Bool.or_eq_false_iff] at hcs
          exact hcs.2

/-- C10: for every store and every supplied prefix list — in any
order — the conversation lookup returns at most one conversation per
distinct id (first occurrence kept) and the list is sorted in ascending
order of `create_time`. -/
theorem c10_lookup_dedup_sorted (tabs : List ConvTable)
    (prefixes : List String) :
    ((get_matching_conversations tabs prefixes).map (·.id)).Nodup ∧
    (get_matching_conversations tabs prefixes).Pairwise
      (fun a b => a.create_time ≤ b.create_time) := by
  haveI hT : IsTotal Conversation (fun a b => a.create_time ≤ b.create_time) :=
    ⟨fun a b => Int.le_total a.create_time b.create_time⟩
  haveI hTr : IsTrans Conversation (fun a b => a.create_time ≤ b.create_time) :=
    ⟨fun a b c hab hbc => le_trans hab hbc⟩
  constructor
  · have hperm : (get_matching_conversations tabs prefixes).Perm
        (dedupAppend (gatherRows tabs prefixes) []) :=
      List.perm_insertionSort _ _
    have hnd := (dedupAppend_nodup (gatherRows tabs prefixes) []).1
    exact ((hperm.map (·.id)).nodup_iff).2 hnd
  · exact List.sorted_insertionSort _ _

end ChatGPTTool
